import Mathlib

/-
Verification development for the cellular-automaton traffic simulation.

The Rust sources (src/flip_flop.rs, src/car.rs, src/cell.rs, src/road.rs) are
shallowly embedded below.  Machine integers are modelled as Nat; the two u8
increments in Car keep an explicit % 256 (release-mode wrap); u32/i32 counters
(distance, cars_passed, rounds, n_cars) are modelled as unbounded Nat, their
wraparound being unreachable in any run considered here.  f32 probabilities,
densities and random samples are modelled as rationals; the thread RNG is an
oracle stream of rational samples in [0,1), so that `occurs(rng, p)` becomes a
comparison of the next sample against p.  Rust panics (index bounds, put_car
failure inside the kernel, invalid configuration) are modelled by Option: a
function returns none exactly where the Rust program would abort.  Note that
the source file cell.rs predates the traffic-light feature used by road.rs
(no traffic_light field, free() without the red parameter); those few members
of Cell are modelled from the specification and marked as such.
-/

/-- FlipFlop (src/flip_flop.rs): a two-state marker. -/
structure FlipFlop where
  state : Bool
deriving Repr, DecidableEq

namespace FlipFlop

/-- Create a flip flop with a state of true. -/
def new : FlipFlop := { state := true }

/-- Flips the state. -/
def flip_flop (f : FlipFlop) : FlipFlop := { state := !f.state }

/-- Unsync: if the two states are equal, flip ours and report true; otherwise
report false.  Rust mutates self and returns bool; here we return the pair. -/
def unsync (f : FlipFlop) (other : FlipFlop) : FlipFlop × Bool :=
  if other.state = f.state then (f.flip_flop, true) else (f, false)

end FlipFlop

/-- VehicleBlueprint (src/car.rs): immutable descriptor of a vehicle class.
max_speed and acceleration_time are u8, traffic_density is f32 (modelled ℚ). -/
structure VehicleBlueprint where
  max_speed : Nat
  acceleration_time : Nat
  traffic_density : ℚ
deriving Repr, DecidableEq

/-- Car (src/car.rs): per-vehicle mutable state. -/
structure Car where
  max_speed : Nat
  acceleration_time : Nat
  acceleration_time_accumulated : Nat
  last_speed : Nat
  speed : Nat
  distance : Nat
  accelerations : Nat
  deaccelerations : Nat
  overflow_flip_flop : FlipFlop
deriving Repr, DecidableEq

namespace Car

/-- Car::new: initial speed 0, fresh flip flop. -/
def new (vehicle_blueprint : VehicleBlueprint) : Car :=
  { max_speed := vehicle_blueprint.max_speed
    acceleration_time := vehicle_blueprint.acceleration_time
    acceleration_time_accumulated := 0
    last_speed := 0
    speed := 0
    distance := 0
    accelerations := 0
    deaccelerations := 0
    overflow_flip_flop := FlipFlop.new }

/-- Car::increase_speed: increment the accumulator (u8, hence % 256); when it
reaches acceleration_time, reset it and increment speed unless at max_speed. -/
def increase_speed (c : Car) : Car :=
  let acc := (c.acceleration_time_accumulated + 1) % 256
  if acc ≠ c.acceleration_time then
    { c with acceleration_time_accumulated := acc }
  else if c.speed = c.max_speed then
    { c with acceleration_time_accumulated := 0 }
  else
    { c with acceleration_time_accumulated := 0, speed := (c.speed + 1) % 256 }

/-- Car::decrease_speed: zero the accumulator, then decrement speed unless 0. -/
def decrease_speed (c : Car) : Car :=
  let c := { c with acceleration_time_accumulated := 0 }
  if c.speed = 0 then c else { c with speed := c.speed - 1 }

/-- Car::decrease_speed_to: if speed < to, clamp the accumulator to
min(accumulator, to) and leave speed alone; otherwise set speed := to. -/
def decrease_speed_to (c : Car) (t : Nat) : Car :=
  if c.speed < t then
    { c with acceleration_time_accumulated := min c.acceleration_time_accumulated t }
  else
    { c with speed := t }

/-- Car::record: commit the round (distance, accel/decel counters, last_speed). -/
def record (c : Car) : Car :=
  let c := { c with distance := c.distance + c.speed }
  let c :=
    if c.last_speed < c.speed then { c with accelerations := c.accelerations + 1 }
    else if c.speed < c.last_speed then { c with deaccelerations := c.deaccelerations + 1 }
    else c
  { c with last_speed := c.speed }

/-- Car::finish: brake to the gap, optionally dilly-dally, then record. -/
def finish (c : Car) (cells_to_next_car : Nat) (dilly_dally : Bool) : Car :=
  let c := c.decrease_speed_to cells_to_next_car
  let c := if dilly_dally then c.decrease_speed else c
  c.record

/-- Car::flip_flop_unsync: unsync our flip flop against the world's. -/
def flip_flop_unsync (c : Car) (other : FlipFlop) : Car × Bool :=
  let u := c.overflow_flip_flop.unsync other
  ({ c with overflow_flip_flop := u.1 }, u.2)

end Car

/-- PutCarErrorInformation (src/cell.rs). -/
structure PutCarErrorInformation where
  cell_blocked : Bool
  new_car : Car
deriving Repr, DecidableEq

/-- Cell (src/cell.rs): one lattice site.  The traffic_light field is
Modelled from the spec: cell.rs in src/ predates the traffic-light feature
that road.rs uses (spec section 4.3: Cell carries a static traffic_light flag). -/
structure Cell where
  car : Option Car
  cars_passed : Nat
  blocked : Bool
  traffic_light : Bool
deriving Repr, DecidableEq

namespace Cell

/-- Cell::new: empty, unblocked; traffic_light false (set later if at all). -/
def new : Cell := { car := none, cars_passed := 0, blocked := false, traffic_light := false }

/-- Cell::block. -/
def block (c : Cell) : Cell := { c with blocked := true }

/-- Modelled from the spec: make_traffic_light sets the static traffic-light
flag on a cell (missing from src/src/cell.rs, called by road.rs). -/
def make_traffic_light (c : Cell) : Cell := { c with traffic_light := true }

/-- Modelled from the spec: is_red_light(red) is traffic_light AND red
(spec section 4.3; missing from src/src/cell.rs, called by road.rs). -/
def is_red_light (c : Cell) (red : Bool) : Bool := c.traffic_light && red

/-- Modelled from the spec: free(red) is (not blocked) and (not red light) and
(no car); the src/src/cell.rs version predates the red parameter. -/
def free (c : Cell) (red : Bool) : Bool :=
  !c.blocked && !(c.is_red_light red) && c.car.isNone

/-- Cell::take_car: remove and return the occupant. -/
def take_car (c : Cell) : Cell × Option Car := ({ c with car := none }, c.car)

/-- Cell::put_car: fails (carrying the rejected car and the blocked flag) when
the cell is blocked or occupied; otherwise stores the car.  Rust mutates self
and returns Result<(), PutCarErrorInformation>; we return the new cell and an
optional error (none = Ok). -/
def put_car (c : Cell) (k : Car) : Cell × Option PutCarErrorInformation :=
  if c.blocked || c.car.isSome then
    (c, some { cell_blocked := c.blocked, new_car := k })
  else
    ({ c with car := some k }, none)

/-- Cell::pass: record the passage of a car. -/
def pass (c : Cell) : Cell := { c with cars_passed := c.cars_passed + 1 }

end Cell

/-- CellLocation (src/cell.rs). -/
structure CellLocation where
  lane : Nat
  index : Nat
deriving Repr, DecidableEq

/-- CellLocationRange (src/cell.rs); the source field named end is a Lean
keyword, rendered stop here.  indexes() iterates start..stop (half open). -/
structure CellLocationRange where
  lane : Nat
  start : Nat
  stop : Nat
deriving Repr, DecidableEq

/-- The thread RNG, modelled as an oracle stream of rational samples in [0,1)
together with a cursor.  rng.gen::<f32>() yields the sample at the cursor. -/
structure Rng where
  sample : Nat → ℚ
  idx : Nat

/-- Rational multiplication, written out on numerators and denominators (it
agrees with * on ℚ) so that concrete runs evaluate by reduction. -/
def qmul (a b : ℚ) : ℚ := mkRat (a.num * b.num) (a.den * b.den)

/-- Rational addition, written out on numerators and denominators (it agrees
with + on ℚ) so that concrete runs evaluate by reduction. -/
def qadd (a b : ℚ) : ℚ := mkRat (a.num * b.den + b.num * a.den) (a.den * b.den)

/-- Rounding of a rational to the nearest integer, half away from zero;
matches f32::round composed with the saturating cast as u32 once .toNat is
applied.  For q ≥ 0 this is the floor of q + 1/2, computed directly on the
numerator and denominator so that the definition evaluates by reduction.
Declared at top level because round would be shadowed inside Road. -/
def ratRound (q : ℚ) : Int :=
  if 0 ≤ q then Int.ediv (2 * q.num + q.den) (2 * q.den)
  else -Int.ediv (2 * (-q).num + (-q).den) (2 * (-q).den)

/-- LaneSwitch (src/road.rs). -/
inductive LaneSwitch where
  | Left (cells : Nat)
  | Right (cells : Nat)
  | Stay (cells : Nat)
deriving Repr, DecidableEq

namespace LaneSwitch

/-- Number of driveable fields carried by the variant. -/
def driveable : LaneSwitch → Nat
  | Left cells => cells
  | Right cells => cells
  | Stay cells => cells

/-- Offset -1, 0, 1 used to index lanes. -/
def to_offset : LaneSwitch → Int
  | Left _ => -1
  | Right _ => 1
  | Stay _ => 0

/-- True when the variant is Left or Right. -/
def is_switch : LaneSwitch → Bool
  | Stay _ => false
  | _ => true

end LaneSwitch

/-- Road (src/road.rs). -/
structure Road where
  rng : Rng
  lanes : List (List Cell)
  n_lanes : Nat
  length : Nat
  cells_to_next_cars : List Nat
  cells_to_next_obstacles : List Nat
  rounds : Nat
  n_cars : Nat
  overflow_flip_flop : FlipFlop
  dilly_dally_probability : ℚ
  stay_in_lane_probability : ℚ
  traffic_lights_red : Bool

namespace Road

/-- Road::occurs: draws rng.gen::<f32>() and compares it against the
probability; the oracle supplies the sample, the cursor advances by one. -/
def occurs (g : Rng) (probability : ℚ) : Bool × Rng :=
  (decide (g.sample g.idx ≤ probability), { g with idx := g.idx + 1 })

/-- Read the cell at (lane_i, cell_i); out-of-range reads (which would panic in
Rust, and are unreachable for well-formed roads) yield a fresh cell. -/
def cellAt (r : Road) (lane_i cell_i : Nat) : Cell :=
  (r.lanes.getD lane_i []).getD cell_i Cell.new

/-- Write the cell at (lane_i, cell_i); out of range writes are dropped. -/
def setCellAt (r : Road) (lane_i cell_i : Nat) (cell : Cell) : Road :=
  { r with lanes := r.lanes.set lane_i ((r.lanes.getD lane_i []).set cell_i cell) }

/-- lanes[lane_i][cell_i].pass() -/
def passAt (r : Road) (lane_i cell_i : Nat) : Road :=
  r.setCellAt lane_i cell_i (r.cellAt lane_i cell_i).pass

/-- The pass-recording loop of round(): for k in (start)..(start+cnt) the cell
at k % len in lane lane_i records a passage. -/
def passCells (r : Road) (lane_i start cnt len : Nat) : Road :=
  match cnt with
  | 0 => r
  | n + 1 => passCells (r.passAt lane_i (start % len)) lane_i (start + 1) n len

/-- lanes[lane_i][cell_i].put_car(k), the Err case propagating as none (the
kernel panics on Err). -/
def putCarAt (r : Road) (lane_i cell_i : Nat) (k : Car) : Option Road :=
  let q := (r.cellAt lane_i cell_i).put_car k
  match q.2 with
  | some _ => none
  | none => some (r.setCellAt lane_i cell_i q.1)

/-- Road::note_car_obstacle. -/
def note_car_obstacle (r : Road) (lane_index distance_away : Nat) : Road :=
  { r with
    cells_to_next_cars := r.cells_to_next_cars.set lane_index distance_away
    cells_to_next_obstacles := r.cells_to_next_obstacles.set lane_index distance_away }

/-- Road::note_car_free: saturating increments of the two counters, except that
an other_obstacle zeroes the obstacle counter. -/
def note_car_free (r : Road) (lane_index : Nat) (other_obstacle : Bool) : Road :=
  let road_length := r.length
  let c := r.cells_to_next_cars.getD lane_index 0
  let cars' := if c < 255 ∧ c < road_length then r.cells_to_next_cars.set lane_index (c + 1)
               else r.cells_to_next_cars
  let o := r.cells_to_next_obstacles.getD lane_index 0
  let obstacles' :=
    if other_obstacle then r.cells_to_next_obstacles.set lane_index 0
    else if o < 255 ∧ o < road_length then r.cells_to_next_obstacles.set lane_index (o + 1)
    else r.cells_to_next_obstacles
  { r with cells_to_next_cars := cars', cells_to_next_obstacles := obstacles' }

/-- Road::check_sides_clear. -/
def check_sides_clear (r : Road) (lane_index cell_index : Nat) : Bool × Bool :=
  let not_in_leftmost_lane := decide (0 < lane_index)
  let not_in_rightmost_lane := decide (lane_index + 1 ≠ r.lanes.length)
  (not_in_leftmost_lane && (r.cellAt (lane_index - 1) cell_index).free r.traffic_lights_red,
   not_in_rightmost_lane && (r.cellAt (lane_index + 1) cell_index).free r.traffic_lights_red)

/-- Road::update_traffic_lights. -/
def update_traffic_lights (r : Road) : Road :=
  { r with traffic_lights_red := r.rounds % 100 != r.rounds % 200 }

/-- The scan of one lane in prepare_cells_to_next_obstacles_for_wrap_around:
record the first non-free cell and the first car, stopping at the car. -/
def prepLaneGo (r : Road) (lane_i : Nat) (looking : Bool) : List Nat → Road
  | [] => r
  | i :: is =>
    let cell := r.cellAt lane_i i
    let st :=
      if looking && !(cell.free r.traffic_lights_red) then
        ({ r with cells_to_next_obstacles := r.cells_to_next_obstacles.set lane_i i }, false)
      else (r, looking)
    if cell.car.isSome then
      { st.1 with cells_to_next_cars := st.1.cells_to_next_cars.set lane_i i }
    else prepLaneGo st.1 lane_i st.2 is

/-- Road::prepare_cells_to_next_obstacles_for_wrap_around: scan every lane from
index 0 up to min(length, 255) seeding the wrap-around counters. -/
def prepare_cells_to_next_obstacles_for_wrap_around (r : Road) : Road :=
  (List.range r.lanes.length).foldl
    (fun r lane_i => prepLaneGo r lane_i true (List.range (min r.length 255))) r

/-- Road::determine_best_lane, with the inner closure
driveable_without_passing_on_right inlined. -/
def determine_best_lane (r : Road) (lane_i available_speed : Nat)
    (left_clear right_clear stay : Bool) : LaneSwitch :=
  let driveable_without_passing_on_right : Int → Nat := fun target_lane_offset =>
    let left_index : Int := (lane_i : Int) + target_lane_offset - 1
    let target_lane_index : Nat := ((lane_i : Int) + target_lane_offset).toNat
    let distance :=
      if left_index < 0 then r.cells_to_next_obstacles.getD target_lane_index 0
      else
        min (min (r.cells_to_next_cars.getD left_index.toNat 0) 254 + 1)
            (r.cells_to_next_obstacles.getD target_lane_index 0)
    if target_lane_offset < 0 ∧ 0 < distance then distance - 1 else distance
  let front_space := min (driveable_without_passing_on_right 0) available_speed
  let best0 := LaneSwitch.Stay front_space
  if !stay && (decide (1 ≤ front_space) || decide (available_speed ≤ 1)) then
    let best1 :=
      if left_clear then
        let left_space := min (driveable_without_passing_on_right (-1)) available_speed
        if decide (0 < left_space) && decide (best0.driveable < left_space) then
          LaneSwitch.Left left_space
        else best0
      else best0
    let best2 :=
      if right_clear then
        let right_space := driveable_without_passing_on_right 1
        if decide (0 < right_space) && decide (best1.driveable ≤ right_space) then
          LaneSwitch.Right (min right_space available_speed)
        else best1
      else best1
    best2
  else best0

/-- The already-moved (wrap-around) branch of round(): note the obstacle and
restore the car in place. -/
def stepStale (r : Road) (lane_i cell_i : Nat) (car1 : Car) : Option Road :=
  (r.note_car_obstacle lane_i 0).putCarAt lane_i cell_i car1

/-- The main branch of round() for a fresh car: accelerate, draw stay, choose
lane, finish (with dilly-dally only when not switching), note counters, record
passages and place the car.  Option models the fatal put_car failure. -/
def stepFresh (r1 : Road) (lane_i cell_i : Nat) (car1 : Car) (left_clear right_clear : Bool) :
    Option Road :=
  let len := r1.length
  let car2 := car1.increase_speed
  let d1 := occurs r1.rng r1.stay_in_lane_probability
  let r2 := { r1 with rng := d1.2 }
  let best := r2.determine_best_lane lane_i car2.speed left_clear right_clear d1.1
  let d2 := if best.is_switch then (false, r2.rng) else occurs r2.rng r2.dilly_dally_probability
  let r3 := { r2 with rng := d2.2 }
  let car3 := car2.finish best.driveable d2.1
  let r4 := r3.note_car_obstacle lane_i 0
  let r5 := if best.is_switch && decide (1 < car3.speed) then
              r4.passAt lane_i ((cell_i + 1) % len) else r4
  let target_lane_i : Nat := ((lane_i : Int) + best.to_offset).toNat
  let r6 := if best.is_switch && decide (0 < car3.speed) then
              r5.note_car_obstacle target_lane_i (car3.speed - 1) else r5
  let r7 := passCells r6 target_lane_i (cell_i + 1) car3.speed len
  r7.putCarAt target_lane_i ((cell_i + car3.speed) % len) car3

/-- The body of round() for one position (lane_i, cell_i). -/
def processCell (r : Road) (lane_i cell_i : Nat) : Option Road :=
  let cell := r.cellAt lane_i cell_i
  if cell.blocked || cell.is_red_light r.traffic_lights_red then
    some (r.note_car_free lane_i true)
  else
    match cell.car with
    | none => some (r.note_car_free lane_i false)
    | some car0 =>
      let sides := r.check_sides_clear lane_i cell_i
      let r1 := r.setCellAt lane_i cell_i { cell with car := none }
      let q := car0.flip_flop_unsync r1.overflow_flip_flop
      if q.2 then r1.stepFresh lane_i cell_i q.1 sides.1 sides.2
      else r1.stepStale lane_i cell_i q.1

/-- The sweep order of round(): columns N-1 down to 0, lanes 0 up to L-1. -/
def sweepPositions (length n_lanes : Nat) : List (Nat × Nat) :=
  (List.range length).reverse.flatMap fun c => (List.range n_lanes).map fun l => (l, c)

/-- Process a list of positions in order, aborting on the first panic. -/
def sweepGo (r : Road) : List (Nat × Nat) → Option Road
  | [] => some r
  | p :: ps =>
    match r.processCell p.1 p.2 with
    | none => none
    | some r' => sweepGo r' ps

/-- The preamble of round(): increment the round counter, update the traffic
lights, then prime the wrap-around counters. -/
def roundPrep (r : Road) : Road :=
  (({ r with rounds := r.rounds + 1 }).update_traffic_lights).prepare_cells_to_next_obstacles_for_wrap_around

/-- Road::round: one round of the cellular automaton; none models the fatal
kernel panic (put_car failure). -/
def round (r : Road) : Option Road :=
  let r0 := r.roundPrep
  match sweepGo r0 (sweepPositions r0.length r0.lanes.length) with
  | none => none
  | some r1 => some { r1 with overflow_flip_flop := r1.overflow_flip_flop.flip_flop }

/-- Iterated rounds (the host loop). -/
def iterateRounds : Nat → Road → Option Road
  | 0, r => some r
  | n + 1, r =>
    match r.round with
    | none => none
    | some r' => iterateRounds n r'

/-- Road::create_lanes_and_cells. -/
def create_lanes_and_cells (n_lanes lane_length : Nat) : List (List Cell) :=
  List.replicate n_lanes (List.replicate lane_length Cell.new)

/-- Block the cells of one CellLocationRange inside one lane, decrementing the
lane's unblocked count; none models the Rust panics (index out of bounds,
u32 underflow of the unblocked count). -/
def blockRangeGo (lane : List Cell) (unblocked : Nat) : List Nat → Option (List Cell × Nat)
  | [] => some (lane, unblocked)
  | i :: is =>
    if i < lane.length then
      match unblocked with
      | 0 => none
      | u + 1 => blockRangeGo (lane.set i (lane.getD i Cell.new).block) u is
    else none

/-- The loop over the blockage list in Road::block_cells. -/
def blockCellsGo (lanes : List (List Cell)) (unblocked : List Nat) :
    List CellLocationRange → Option (List (List Cell) × List Nat)
  | [] => some (lanes, unblocked)
  | b :: bs =>
    if b.lane < lanes.length then
      match blockRangeGo (lanes.getD b.lane []) (unblocked.getD b.lane 0)
          (List.range' b.start (b.stop - b.start)) with
      | none => none
      | some (lane', u') => blockCellsGo (lanes.set b.lane lane') (unblocked.set b.lane u') bs
    else none

/-- Road::block_cells: apply every blockage range, returning the lanes and the
per-lane unblocked counts (initially length each). -/
def block_cells (lanes : List (List Cell)) (length : Nat)
    (block : List CellLocationRange) : Option (List (List Cell) × List Nat) :=
  blockCellsGo lanes (List.replicate lanes.length length) block

/-- Road::add_traffic_lights; none models the Rust index panics. -/
def add_traffic_lights (lanes : List (List Cell)) :
    List CellLocation → Option (List (List Cell))
  | [] => some lanes
  | tl :: tls =>
    if tl.lane < lanes.length ∧ tl.index < (lanes.getD tl.lane []).length then
      add_traffic_lights
        (lanes.set tl.lane ((lanes.getD tl.lane []).set tl.index
          ((lanes.getD tl.lane []).getD tl.index Cell.new).make_traffic_light)) tls
    else none

/-- The spawning while-loop of Road::add_cars for one lane and one blueprint:
walk the lane cyclically, drawing a Bernoulli trial per visited cell, placing
a car on free cells, until the target count is met.  The fuel bounds the loop
(the Rust loop need not terminate); none models fuel exhaustion and the panics
(empty lane with a positive target, put_car unwrap). -/
def spawnLoop (bp : VehicleBlueprint) : Nat → Rng → List Cell → Nat → Nat → Nat →
    Option (List Cell × Rng)
  | 0, _, _, _, _, _ => none
  | fuel + 1, g, lane, target, spawned, index =>
    if target ≤ spawned then some (lane, g)
    else
      if lane.length = 0 then none
      else
        let cell := lane.getD index Cell.new
        let d := Road.occurs g bp.traffic_density
        if d.1 && cell.free false then
          let q := cell.put_car (Car.new bp)
          match q.2 with
          | some _ => none
          | none =>
            spawnLoop bp fuel d.2 (lane.set index q.1) target (spawned + 1)
              ((index + 1) % lane.length)
        else
          spawnLoop bp fuel d.2 lane target spawned ((index + 1) % lane.length)

/-- The per-lane loop of Road::add_cars for one blueprint: zip the lanes with
their unblocked counts, targeting round(density * unblocked) cars per lane. -/
def addCarsLanes (bp : VehicleBlueprint) (fuel : Nat) :
    Rng → List (List Cell) → List Nat → Option (List (List Cell) × Rng × Nat)
  | g, [], _ => some ([], g, 0)
  | g, lane :: restLanes, [] => some (lane :: restLanes, g, 0)
  | g, lane :: restLanes, u :: us =>
    let n_cars_in_lane := (ratRound (qmul bp.traffic_density (u : ℚ))).toNat
    match spawnLoop bp fuel g lane n_cars_in_lane 0 0 with
    | none => none
    | some (lane', g') =>
      match addCarsLanes bp fuel g' restLanes us with
      | none => none
      | some (lanes', g'', n) => some (lane' :: lanes', g'', n_cars_in_lane + n)

/-- The blueprint loop of Road::add_cars. -/
def addCarsBps (fuel : Nat) (unblocked : List Nat) :
    Rng → List (List Cell) → List VehicleBlueprint → Option (List (List Cell) × Rng × Nat)
  | g, lanes, [] => some (lanes, g, 0)
  | g, lanes, bp :: bps =>
    match addCarsLanes bp fuel g lanes unblocked with
    | none => none
    | some (lanes', g', n) =>
      match addCarsBps fuel unblocked g' lanes' bps with
      | none => none
      | some (lanes'', g'', n') => some (lanes'', g'', n + n')

/-- Road::add_cars: validate the density sum, then populate every lane for
every blueprint. -/
def add_cars (fuel : Nat) (lanes : List (List Cell)) (unblocked : List Nat) (g : Rng)
    (vehicle_blueprints : List VehicleBlueprint) : Option (List (List Cell) × Rng × Nat) :=
  let s := (vehicle_blueprints.map VehicleBlueprint.traffic_density).foldr qadd 0
  if 0 ≤ s ∧ s ≤ 1 then addCarsBps fuel unblocked g lanes vehicle_blueprints
  else none

/-- Road::new; none models the construction panics (invalid dilly-dally
probability, invalid density sum, blockage or traffic-light indexes out of
range) and spawn-loop divergence (fuel). -/
def new (fuel lanes_n length : Nat) (vehicle_blueprints : List VehicleBlueprint)
    (dilly_dally_probability stay_in_lane_probability : ℚ)
    (block : List CellLocationRange) (traffic_lights : List CellLocation)
    (g : Rng) : Option Road :=
  if 0 ≤ dilly_dally_probability ∧ dilly_dally_probability ≤ 1 then
    match block_cells (create_lanes_and_cells lanes_n length) length block with
    | none => none
    | some (lanes1, unblocked) =>
      match add_traffic_lights lanes1 traffic_lights with
      | none => none
      | some lanes2 =>
        match add_cars fuel lanes2 unblocked g vehicle_blueprints with
        | none => none
        | some (lanes3, g', n_cars) =>
          some
            { rng := g'
              lanes := lanes3
              n_lanes := lanes_n
              length := length
              cells_to_next_cars := List.replicate lanes_n 255
              cells_to_next_obstacles := List.replicate lanes_n 255
              rounds := 0
              n_cars := n_cars
              overflow_flip_flop := FlipFlop.new
              dilly_dally_probability := dilly_dally_probability
              stay_in_lane_probability := stay_in_lane_probability
              traffic_lights_red := false }
  else none

end Road

section ListLemmas

variable {α : Type}

theorem getD_set_self (l : List α) (i : Nat) (a d : α) (h : i < l.length) :
    (l.set i a).getD i d = a := by
  simp [List.getD, List.getElem?_set_self, h]

theorem getD_set_ne (l : List α) (i j : Nat) (a d : α) (h : i ≠ j) :
    (l.set i a).getD j d = l.getD j d := by
  simp [List.getD, List.getElem?_set_ne h]

theorem getD_mem (l : List α) (i : Nat) (d : α) (h : i < l.length) : l.getD i d ∈ l := by
  rw [List.getD_eq_getElem l d h]; exact List.getElem_mem h

theorem getD_of_length_le (l : List α) (i : Nat) (d : α) (h : l.length ≤ i) :
    l.getD i d = d := by
  simp [List.getD, List.getElem?_eq_none h]

/-- Replacing element i changes a mapped sum by exactly the difference at i. -/
theorem sum_map_set (f : α → Nat) (x : α) :
    ∀ (l : List α) (i : Nat) (a : α), i < l.length →
      ((l.set i a).map f).sum + f (l.getD i x) = (l.map f).sum + f a := by
  intro l
  induction l with
  | nil => intro i a h; simp at h
  | cons b t ih =>
    intro i a h
    cases i with
    | zero => simp [List.getD_cons_zero]; omega
    | succ n =>
      simp only [List.set, List.map, List.sum_cons, List.getD_cons_succ]
      have := ih n a (by simpa using h)
      omega

end ListLemmas

namespace Road

/-- Sum of a cell statistic over one lane. -/
def laneSum (f : Cell → Nat) (lane : List Cell) : Nat := (lane.map f).sum

/-- Sum of a cell statistic over the whole grid. -/
def gridSum (f : Cell → Nat) (r : Road) : Nat := (r.lanes.map (laneSum f)).sum

/-- Occupancy indicator of a cell. -/
def cellOcc (cell : Cell) : Nat := if cell.car.isSome then 1 else 0

/-- Distance accumulated by the occupant, if any. -/
def cellDist (cell : Cell) : Nat := (cell.car.map Car.distance).getD 0

/-- Total number of cars on the grid. -/
def carCount (r : Road) : Nat := gridSum cellOcc r

/-- Total of the cars_passed counters over the grid. -/
def sumPassed (r : Road) : Nat := gridSum Cell.cars_passed r

/-- Total distance driven by all cars on the grid. -/
def sumDistance (r : Road) : Nat := gridSum cellDist r

/-- A boolean cell predicate holding everywhere on the grid. -/
def gridAllB (f : Cell → Bool) (r : Road) : Prop :=
  ∀ lane ∈ r.lanes, ∀ cell ∈ lane, f cell = true

/-- The occupant, if any, satisfies p. -/
def cellCarsAll (p : Car → Bool) (cell : Cell) : Bool := cell.car.all p

/-- Dimensional well-formedness: every lane has length equal to the length
field (true of every road built by Road::new, preserved by round()). -/
def WF (r : Road) : Prop := ∀ lane ∈ r.lanes, lane.length = r.length

theorem setCellAt_oob (r : Road) (l c : Nat) (cell : Cell) (h : r.lanes.length ≤ l) :
    r.setCellAt l c cell = r := by
  unfold setCellAt
  rw [List.set_eq_of_length_le h]

theorem setCellAt_oob_cell (r : Road) (l c : Nat) (cell : Cell)
    (h : (r.lanes.getD l []).length ≤ c) :
    r.setCellAt l c cell = { r with lanes := r.lanes.set l (r.lanes.getD l []) } := by
  unfold setCellAt
  rw [List.set_eq_of_length_le h]

theorem set_getD_self (l : List α) (i : Nat) (d : α) : l.set i (l.getD i d) = l := by
  rcases Nat.lt_or_ge i l.length with h | h
  · rw [List.getD_eq_getElem l d h]
    apply List.ext_getElem
    · simp
    · intro n h1 h2
      rcases eq_or_ne i n with rfl | hne
      · simp
      · rw [List.getElem_set_ne hne]
  · exact List.set_eq_of_length_le h

theorem gridSum_setCellAt (f : Cell → Nat) (r : Road) (l c : Nat) (cell : Cell)
    (hl : l < r.lanes.length) (hc : c < (r.lanes.getD l []).length) :
    gridSum f (r.setCellAt l c cell) + f (r.cellAt l c) = gridSum f r + f cell := by
  unfold gridSum setCellAt cellAt
  simp only
  have houter := sum_map_set (laneSum f) []
    r.lanes l ((r.lanes.getD l []).set c cell) hl
  have hinner := sum_map_set f Cell.new (r.lanes.getD l []) c cell hc
  simp only [laneSum] at houter ⊢
  omega

theorem gridSum_setCellAt_oob (f : Cell → Nat) (r : Road) (l c : Nat) (cell : Cell)
    (h : ¬(l < r.lanes.length ∧ c < (r.lanes.getD l []).length)) :
    gridSum f (r.setCellAt l c cell) = gridSum f r := by
  rcases Nat.lt_or_ge l r.lanes.length with hl | hl
  · have hc : (r.lanes.getD l []).length ≤ c := by
      rcases Nat.lt_or_ge c (r.lanes.getD l []).length with hc | hc
      · exact absurd ⟨hl, hc⟩ h
      · exact hc
    rw [setCellAt_oob_cell r l c cell hc]
    unfold gridSum
    rw [set_getD_self]
  · rw [setCellAt_oob r l c cell hl]

theorem gridAllB_setCellAt (f : Cell → Bool) (r : Road) (l c : Nat) (cell : Cell)
    (h : gridAllB f r) (hcell : f cell = true) : gridAllB f (r.setCellAt l c cell) := by
  intro lane' hl' cell' hc'
  rcases List.mem_or_eq_of_mem_set hl' with h1 | h1
  · exact h lane' h1 cell' hc'
  · subst h1
    rcases List.mem_or_eq_of_mem_set hc' with h2 | h2
    · rcases Nat.lt_or_ge l r.lanes.length with hl | hl
      · exact h _ (getD_mem r.lanes l [] hl) cell' h2
      · rw [getD_of_length_le r.lanes l [] hl] at h2; simp at h2
    · subst h2; exact hcell

theorem gridAllB_cellAt (f : Cell → Bool) (r : Road) (l c : Nat)
    (h : gridAllB f r) (hnew : f Cell.new = true) : f (r.cellAt l c) = true := by
  unfold cellAt
  rcases Nat.lt_or_ge l r.lanes.length with hl | hl
  · rcases Nat.lt_or_ge c (r.lanes.getD l []).length with hc | hc
    · exact h _ (getD_mem r.lanes l [] hl) _ (getD_mem _ c Cell.new hc)
    · rw [getD_of_length_le _ c Cell.new hc]; exact hnew
  · rw [getD_of_length_le r.lanes l [] hl]
    simp [List.getD]; exact hnew

theorem WF_setCellAt (r : Road) (l c : Nat) (cell : Cell) (h : WF r) :
    WF (r.setCellAt l c cell) := by
  rcases Nat.lt_or_ge l r.lanes.length with hl | hl
  · intro lane' hl'
    rcases List.mem_or_eq_of_mem_set hl' with h1 | h1
    · exact h lane' h1
    · rw [h1, List.length_set]
      exact h _ (getD_mem r.lanes l [] hl)
  · rw [setCellAt_oob r l c cell hl]; exact h

theorem cellAt_setCellAt_self (r : Road) (l c : Nat) (cell : Cell)
    (hl : l < r.lanes.length) (hc : c < (r.lanes.getD l []).length) :
    (r.setCellAt l c cell).cellAt l c = cell := by
  unfold setCellAt cellAt
  simp only
  rw [getD_set_self _ _ _ _ hl, getD_set_self _ _ _ _ hc]

theorem cellAt_setCellAt_ne (r : Road) (l c l' c' : Nat) (cell : Cell)
    (h : l ≠ l' ∨ c ≠ c') :
    (r.setCellAt l c cell).cellAt l' c' = r.cellAt l' c' := by
  unfold setCellAt cellAt
  simp only
  rcases eq_or_ne l l' with rfl | hne
  · rcases h with h | h
    · exact absurd rfl h
    · rcases Nat.lt_or_ge l r.lanes.length with hl | hl
      · rw [getD_set_self _ _ _ _ hl, getD_set_ne _ _ _ _ _ h]
      · rw [List.set_eq_of_length_le hl]
  · rw [getD_set_ne _ _ _ _ _ hne]

/-- put_car succeeding means the cell was unblocked and empty, and the result
is the same road with exactly that car stored there. -/
theorem putCarAt_eq_some (r : Road) (l c : Nat) (k : Car) (r' : Road)
    (h : r.putCarAt l c k = some r') :
    (r.cellAt l c).blocked = false ∧ (r.cellAt l c).car = none ∧
      r' = r.setCellAt l c { r.cellAt l c with car := some k } := by
  unfold putCarAt Cell.put_car at h
  rcases hcell : r.cellAt l c with ⟨cq, pq, bq, tq⟩
  rw [hcell] at h
  cases bq with
  | true => simp at h
  | false =>
    cases cq with
    | some kk => simp at h
    | none =>
      simp only [Bool.or_self, Bool.false_or, Option.isSome_none, if_neg Bool.false_ne_true] at h
      refine ⟨rfl, rfl, ?_⟩
      simpa using h.symm

section Shapes

/-- The counter notes only rewrite the two counter lists. -/
theorem note_car_obstacle_shape (r : Road) (l d : Nat) :
    ∃ k1 k2, r.note_car_obstacle l d =
      { r with cells_to_next_cars := k1, cells_to_next_obstacles := k2 } :=
  ⟨_, _, rfl⟩

theorem note_car_free_shape (r : Road) (l : Nat) (b : Bool) :
    ∃ k1 k2, r.note_car_free l b =
      { r with cells_to_next_cars := k1, cells_to_next_obstacles := k2 } := by
  unfold note_car_free
  exact ⟨_, _, rfl⟩

theorem passCells_shape (l len : Nat) : ∀ (n s : Nat) (r : Road),
    ∃ ls, passCells r l s n len = { r with lanes := ls } := by
  intro n
  induction n with
  | zero => intro s r; exact ⟨r.lanes, rfl⟩
  | succ m ih =>
    intro s r
    obtain ⟨ls, hls⟩ := ih (s + 1) (r.passAt l (s % len))
    refine ⟨ls, ?_⟩
    show passCells (r.passAt l (s % len)) l (s + 1) m len = _
    rw [hls]
    rfl

theorem prepLaneGo_shape (l : Nat) : ∀ (is : List Nat) (r : Road) (looking : Bool),
    ∃ k1 k2, prepLaneGo r l looking is =
      { r with cells_to_next_cars := k1, cells_to_next_obstacles := k2 } := by
  intro is
  induction is with
  | nil => intro r looking; exact ⟨r.cells_to_next_cars, r.cells_to_next_obstacles, rfl⟩
  | cons i is ih =>
    intro r looking
    simp only [prepLaneGo]
    by_cases h1 : (looking && !((r.cellAt l i).free r.traffic_lights_red)) = true
    · rw [if_pos h1]
      by_cases h2 : ((r.cellAt l i).car).isSome = true
      · rw [if_pos h2]; exact ⟨_, _, rfl⟩
      · rw [if_neg h2]
        show ∃ k1 k2,
          prepLaneGo { r with cells_to_next_obstacles := r.cells_to_next_obstacles.set l i }
            l false is = _
        obtain ⟨k1, k2, hk⟩ :=
          ih { r with cells_to_next_obstacles := r.cells_to_next_obstacles.set l i } false
        rw [hk]
        exact ⟨k1, k2, rfl⟩
    · rw [if_neg h1]
      by_cases h2 : ((r.cellAt l i).car).isSome = true
      · rw [if_pos h2]; exact ⟨_, _, rfl⟩
      · rw [if_neg h2]
        show ∃ k1 k2, prepLaneGo r l looking is = _
        obtain ⟨k1, k2, hk⟩ := ih r looking
        rw [hk]
        exact ⟨k1, k2, rfl⟩

theorem prepare_shape (r : Road) :
    ∃ k1 k2, r.prepare_cells_to_next_obstacles_for_wrap_around =
      { r with cells_to_next_cars := k1, cells_to_next_obstacles := k2 } := by
  unfold prepare_cells_to_next_obstacles_for_wrap_around
  generalize List.range r.lanes.length = idxs
  induction idxs generalizing r with
  | nil => exact ⟨r.cells_to_next_cars, r.cells_to_next_obstacles, rfl⟩
  | cons i is ih =>
    rw [List.foldl_cons]
    obtain ⟨k1, k2, hk⟩ := prepLaneGo_shape i (List.range (min r.length 255)) r true
    rw [hk]
    obtain ⟨k1', k2', hk'⟩ :=
      ih { r with cells_to_next_cars := k1, cells_to_next_obstacles := k2 }
    rw [hk']
    exact ⟨k1', k2', rfl⟩

end Shapes

section Projections

@[simp] theorem setCellAt_rng (r : Road) (l c : Nat) (x : Cell) :
    (r.setCellAt l c x).rng = r.rng := rfl
@[simp] theorem setCellAt_n_lanes (r : Road) (l c : Nat) (x : Cell) :
    (r.setCellAt l c x).n_lanes = r.n_lanes := rfl
@[simp] theorem setCellAt_length (r : Road) (l c : Nat) (x : Cell) :
    (r.setCellAt l c x).length = r.length := rfl
@[simp] theorem setCellAt_rounds (r : Road) (l c : Nat) (x : Cell) :
    (r.setCellAt l c x).rounds = r.rounds := rfl
@[simp] theorem setCellAt_n_cars (r : Road) (l c : Nat) (x : Cell) :
    (r.setCellAt l c x).n_cars = r.n_cars := rfl
@[simp] theorem setCellAt_flop (r : Road) (l c : Nat) (x : Cell) :
    (r.setCellAt l c x).overflow_flip_flop = r.overflow_flip_flop := rfl
@[simp] theorem setCellAt_dilly (r : Road) (l c : Nat) (x : Cell) :
    (r.setCellAt l c x).dilly_dally_probability = r.dilly_dally_probability := rfl
@[simp] theorem setCellAt_stayp (r : Road) (l c : Nat) (x : Cell) :
    (r.setCellAt l c x).stay_in_lane_probability = r.stay_in_lane_probability := rfl
@[simp] theorem setCellAt_red (r : Road) (l c : Nat) (x : Cell) :
    (r.setCellAt l c x).traffic_lights_red = r.traffic_lights_red := rfl
@[simp] theorem setCellAt_counters1 (r : Road) (l c : Nat) (x : Cell) :
    (r.setCellAt l c x).cells_to_next_cars = r.cells_to_next_cars := rfl
@[simp] theorem setCellAt_counters2 (r : Road) (l c : Nat) (x : Cell) :
    (r.setCellAt l c x).cells_to_next_obstacles = r.cells_to_next_obstacles := rfl
@[simp] theorem setCellAt_lanes_length (r : Road) (l c : Nat) (x : Cell) :
    (r.setCellAt l c x).lanes.length = r.lanes.length := by
  unfold setCellAt; simp

@[simp] theorem note_car_obstacle_lanes (r : Road) (l d : Nat) :
    (r.note_car_obstacle l d).lanes = r.lanes := rfl
@[simp] theorem note_car_obstacle_rng (r : Road) (l d : Nat) :
    (r.note_car_obstacle l d).rng = r.rng := rfl
@[simp] theorem note_car_obstacle_n_lanes (r : Road) (l d : Nat) :
    (r.note_car_obstacle l d).n_lanes = r.n_lanes := rfl
@[simp] theorem note_car_obstacle_length (r : Road) (l d : Nat) :
    (r.note_car_obstacle l d).length = r.length := rfl
@[simp] theorem note_car_obstacle_rounds (r : Road) (l d : Nat) :
    (r.note_car_obstacle l d).rounds = r.rounds := rfl
@[simp] theorem note_car_obstacle_n_cars (r : Road) (l d : Nat) :
    (r.note_car_obstacle l d).n_cars = r.n_cars := rfl
@[simp] theorem note_car_obstacle_flop (r : Road) (l d : Nat) :
    (r.note_car_obstacle l d).overflow_flip_flop = r.overflow_flip_flop := rfl
@[simp] theorem note_car_obstacle_dilly (r : Road) (l d : Nat) :
    (r.note_car_obstacle l d).dilly_dally_probability = r.dilly_dally_probability := rfl
@[simp] theorem note_car_obstacle_stayp (r : Road) (l d : Nat) :
    (r.note_car_obstacle l d).stay_in_lane_probability = r.stay_in_lane_probability := rfl
@[simp] theorem note_car_obstacle_red (r : Road) (l d : Nat) :
    (r.note_car_obstacle l d).traffic_lights_red = r.traffic_lights_red := rfl

theorem note_car_free_eq (r : Road) (l : Nat) (b : Bool) :
    r.note_car_free l b =
      { r with
        cells_to_next_cars := (r.note_car_free l b).cells_to_next_cars
        cells_to_next_obstacles := (r.note_car_free l b).cells_to_next_obstacles } := by
  obtain ⟨k1, k2, hk⟩ := note_car_free_shape r l b
  rw [hk]

@[simp] theorem note_car_free_lanes (r : Road) (l : Nat) (b : Bool) :
    (r.note_car_free l b).lanes = r.lanes := by rw [note_car_free_eq]
@[simp] theorem note_car_free_rng (r : Road) (l : Nat) (b : Bool) :
    (r.note_car_free l b).rng = r.rng := by rw [note_car_free_eq]
@[simp] theorem note_car_free_n_lanes (r : Road) (l : Nat) (b : Bool) :
    (r.note_car_free l b).n_lanes = r.n_lanes := by rw [note_car_free_eq]
@[simp] theorem note_car_free_length (r : Road) (l : Nat) (b : Bool) :
    (r.note_car_free l b).length = r.length := by rw [note_car_free_eq]
@[simp] theorem note_car_free_rounds (r : Road) (l : Nat) (b : Bool) :
    (r.note_car_free l b).rounds = r.rounds := by rw [note_car_free_eq]
@[simp] theorem note_car_free_n_cars (r : Road) (l : Nat) (b : Bool) :
    (r.note_car_free l b).n_cars = r.n_cars := by rw [note_car_free_eq]
@[simp] theorem note_car_free_flop (r : Road) (l : Nat) (b : Bool) :
    (r.note_car_free l b).overflow_flip_flop = r.overflow_flip_flop := by rw [note_car_free_eq]
@[simp] theorem note_car_free_dilly (r : Road) (l : Nat) (b : Bool) :
    (r.note_car_free l b).dilly_dally_probability = r.dilly_dally_probability := by
  rw [note_car_free_eq]
@[simp] theorem note_car_free_stayp (r : Road) (l : Nat) (b : Bool) :
    (r.note_car_free l b).stay_in_lane_probability = r.stay_in_lane_probability := by
  rw [note_car_free_eq]
@[simp] theorem note_car_free_red (r : Road) (l : Nat) (b : Bool) :
    (r.note_car_free l b).traffic_lights_red = r.traffic_lights_red := by rw [note_car_free_eq]

@[simp] theorem passAt_rng (r : Road) (l c : Nat) : (r.passAt l c).rng = r.rng := rfl
@[simp] theorem passAt_n_lanes (r : Road) (l c : Nat) : (r.passAt l c).n_lanes = r.n_lanes := rfl
@[simp] theorem passAt_length (r : Road) (l c : Nat) : (r.passAt l c).length = r.length := rfl
@[simp] theorem passAt_rounds (r : Road) (l c : Nat) : (r.passAt l c).rounds = r.rounds := rfl
@[simp] theorem passAt_n_cars (r : Road) (l c : Nat) : (r.passAt l c).n_cars = r.n_cars := rfl
@[simp] theorem passAt_flop (r : Road) (l c : Nat) :
    (r.passAt l c).overflow_flip_flop = r.overflow_flip_flop := rfl
@[simp] theorem passAt_dilly (r : Road) (l c : Nat) :
    (r.passAt l c).dilly_dally_probability = r.dilly_dally_probability := rfl
@[simp] theorem passAt_stayp (r : Road) (l c : Nat) :
    (r.passAt l c).stay_in_lane_probability = r.stay_in_lane_probability := rfl
@[simp] theorem passAt_red (r : Road) (l c : Nat) :
    (r.passAt l c).traffic_lights_red = r.traffic_lights_red := rfl
@[simp] theorem passAt_counters1 (r : Road) (l c : Nat) :
    (r.passAt l c).cells_to_next_cars = r.cells_to_next_cars := rfl
@[simp] theorem passAt_counters2 (r : Road) (l c : Nat) :
    (r.passAt l c).cells_to_next_obstacles = r.cells_to_next_obstacles := rfl
@[simp] theorem passAt_lanes_length (r : Road) (l c : Nat) :
    (r.passAt l c).lanes.length = r.lanes.length := setCellAt_lanes_length ..

theorem passCells_eq (r : Road) (l s n len : Nat) :
    passCells r l s n len = { r with lanes := (passCells r l s n len).lanes } := by
  obtain ⟨ls, hk⟩ := passCells_shape l len n s r
  rw [hk]

@[simp] theorem passCells_rng (r : Road) (l s n len : Nat) :
    (passCells r l s n len).rng = r.rng := by rw [passCells_eq]
@[simp] theorem passCells_n_lanes (r : Road) (l s n len : Nat) :
    (passCells r l s n len).n_lanes = r.n_lanes := by rw [passCells_eq]
@[simp] theorem passCells_length (r : Road) (l s n len : Nat) :
    (passCells r l s n len).length = r.length := by rw [passCells_eq]
@[simp] theorem passCells_rounds (r : Road) (l s n len : Nat) :
    (passCells r l s n len).rounds = r.rounds := by rw [passCells_eq]
@[simp] theorem passCells_n_cars (r : Road) (l s n len : Nat) :
    (passCells r l s n len).n_cars = r.n_cars := by rw [passCells_eq]
@[simp] theorem passCells_flop (r : Road) (l s n len : Nat) :
    (passCells r l s n len).overflow_flip_flop = r.overflow_flip_flop := by rw [passCells_eq]
@[simp] theorem passCells_dilly (r : Road) (l s n len : Nat) :
    (passCells r l s n len).dilly_dally_probability = r.dilly_dally_probability := by
  rw [passCells_eq]
@[simp] theorem passCells_stayp (r : Road) (l s n len : Nat) :
    (passCells r l s n len).stay_in_lane_probability = r.stay_in_lane_probability := by
  rw [passCells_eq]
@[simp] theorem passCells_red (r : Road) (l s n len : Nat) :
    (passCells r l s n len).traffic_lights_red = r.traffic_lights_red := by rw [passCells_eq]
@[simp] theorem passCells_counters1 (r : Road) (l s n len : Nat) :
    (passCells r l s n len).cells_to_next_cars = r.cells_to_next_cars := by rw [passCells_eq]
@[simp] theorem passCells_counters2 (r : Road) (l s n len : Nat) :
    (passCells r l s n len).cells_to_next_obstacles = r.cells_to_next_obstacles := by
  rw [passCells_eq]

theorem passCells_lanes_length (l len : Nat) : ∀ (n s : Nat) (r : Road),
    (passCells r l s n len).lanes.length = r.lanes.length := by
  intro n
  induction n with
  | zero => intro s r; rfl
  | succ m ih =>
    intro s r
    show (passCells (r.passAt l (s % len)) l (s + 1) m len).lanes.length = _
    rw [ih (s + 1) (r.passAt l (s % len))]
    exact passAt_lanes_length ..

theorem prepare_eq (r : Road) :
    r.prepare_cells_to_next_obstacles_for_wrap_around =
      { r with
        cells_to_next_cars := r.prepare_cells_to_next_obstacles_for_wrap_around.cells_to_next_cars
        cells_to_next_obstacles := r.prepare_cells_to_next_obstacles_for_wrap_around.cells_to_next_obstacles } := by
  obtain ⟨k1, k2, hk⟩ := prepare_shape r
  rw [hk]

@[simp] theorem prepare_lanes (r : Road) :
    r.prepare_cells_to_next_obstacles_for_wrap_around.lanes = r.lanes := by rw [prepare_eq]
@[simp] theorem prepare_rng (r : Road) :
    r.prepare_cells_to_next_obstacles_for_wrap_around.rng = r.rng := by rw [prepare_eq]
@[simp] theorem prepare_n_lanes (r : Road) :
    r.prepare_cells_to_next_obstacles_for_wrap_around.n_lanes = r.n_lanes := by rw [prepare_eq]
@[simp] theorem prepare_length (r : Road) :
    r.prepare_cells_to_next_obstacles_for_wrap_around.length = r.length := by rw [prepare_eq]
@[simp] theorem prepare_rounds (r : Road) :
    r.prepare_cells_to_next_obstacles_for_wrap_around.rounds = r.rounds := by rw [prepare_eq]
@[simp] theorem prepare_n_cars (r : Road) :
    r.prepare_cells_to_next_obstacles_for_wrap_around.n_cars = r.n_cars := by rw [prepare_eq]
@[simp] theorem prepare_flop (r : Road) :
    r.prepare_cells_to_next_obstacles_for_wrap_around.overflow_flip_flop =
      r.overflow_flip_flop := by rw [prepare_eq]
@[simp] theorem prepare_dilly (r : Road) :
    r.prepare_cells_to_next_obstacles_for_wrap_around.dilly_dally_probability =
      r.dilly_dally_probability := by rw [prepare_eq]
@[simp] theorem prepare_stayp (r : Road) :
    r.prepare_cells_to_next_obstacles_for_wrap_around.stay_in_lane_probability =
      r.stay_in_lane_probability := by rw [prepare_eq]
@[simp] theorem prepare_red (r : Road) :
    r.prepare_cells_to_next_obstacles_for_wrap_around.traffic_lights_red =
      r.traffic_lights_red := by rw [prepare_eq]

end Projections

section FramePreservation

/-- The fields of Road that neither the sweep nor any step touches (and the
lane count, which is also invariant). -/
def framePres (r r' : Road) : Prop :=
  r'.n_lanes = r.n_lanes ∧ r'.length = r.length ∧ r'.rounds = r.rounds ∧
    r'.n_cars = r.n_cars ∧ r'.overflow_flip_flop = r.overflow_flip_flop ∧
    r'.dilly_dally_probability = r.dilly_dally_probability ∧
    r'.stay_in_lane_probability = r.stay_in_lane_probability ∧
    r'.traffic_lights_red = r.traffic_lights_red ∧
    r'.lanes.length = r.lanes.length

theorem framePres_self (r : Road) : framePres r r :=
  ⟨rfl, rfl, rfl, rfl, rfl, rfl, rfl, rfl, rfl⟩

theorem framePres_trans {a b c : Road} (h1 : framePres a b) (h2 : framePres b c) :
    framePres a c := by
  obtain ⟨x1, x2, x3, x4, x5, x6, x7, x8, x9⟩ := h1
  obtain ⟨y1, y2, y3, y4, y5, y6, y7, y8, y9⟩ := h2
  exact ⟨y1.trans x1, y2.trans x2, y3.trans x3, y4.trans x4, y5.trans x5,
    y6.trans x6, y7.trans x7, y8.trans x8, y9.trans x9⟩

theorem framePres_stepFresh (r1 : Road) (l c : Nat) (car1 : Car) (lc rc : Bool) (r' : Road)
    (h : r1.stepFresh l c car1 lc rc = some r') : framePres r1 r' := by
  unfold stepFresh at h
  simp only at h
  obtain ⟨_, _, rfl⟩ := putCarAt_eq_some _ _ _ _ _ h
  refine ⟨?_, ?_, ?_, ?_, ?_, ?_, ?_, ?_, ?_⟩ <;>
    · repeat' split
      all_goals simp [passCells_lanes_length]

theorem framePres_stepStale (r1 : Road) (l c : Nat) (car1 : Car) (r' : Road)
    (h : r1.stepStale l c car1 = some r') : framePres r1 r' := by
  unfold stepStale at h
  obtain ⟨_, _, rfl⟩ := putCarAt_eq_some _ _ _ _ _ h
  refine ⟨?_, ?_, ?_, ?_, ?_, ?_, ?_, ?_, ?_⟩ <;> simp

theorem framePres_processCell (r : Road) (l c : Nat) (r' : Road)
    (h : r.processCell l c = some r') : framePres r r' := by
  unfold processCell at h
  simp only at h
  split at h
  · obtain rfl := Option.some_injective _ h
    refine ⟨?_, ?_, ?_, ?_, ?_, ?_, ?_, ?_, ?_⟩ <;> simp
  · split at h
    · obtain rfl := Option.some_injective _ h
      refine ⟨?_, ?_, ?_, ?_, ?_, ?_, ?_, ?_, ?_⟩ <;> simp
    · split at h
      · exact framePres_trans (by refine ⟨?_, ?_, ?_, ?_, ?_, ?_, ?_, ?_, ?_⟩ <;> simp)
          (framePres_stepFresh _ _ _ _ _ _ _ h)
      · exact framePres_trans (by refine ⟨?_, ?_, ?_, ?_, ?_, ?_, ?_, ?_, ?_⟩ <;> simp)
          (framePres_stepStale _ _ _ _ _ h)

theorem framePres_sweepGo : ∀ (ps : List (Nat × Nat)) (r r' : Road),
    sweepGo r ps = some r' → framePres r r' := by
  intro ps
  induction ps with
  | nil =>
    intro r r' h
    obtain rfl := Option.some_injective _ h
    exact framePres_self r
  | cons p ps ih =>
    intro r r' h
    rw [sweepGo] at h
    cases hpc : r.processCell p.1 p.2 with
    | none => rw [hpc] at h; exact absurd h (by simp)
    | some rMid =>
      rw [hpc] at h
      exact framePres_trans (framePres_processCell _ _ _ _ hpc) (ih _ _ h)

end FramePreservation

section GridOps

/-- Statistics insensitive to pass() are unchanged by passAt, in or out of
bounds. -/
theorem gridSum_passAt_inv (f : Cell → Nat) (hf : ∀ cell, f cell.pass = f cell)
    (r : Road) (l i : Nat) : gridSum f (r.passAt l i) = gridSum f r := by
  unfold passAt
  by_cases hb : l < r.lanes.length ∧ i < (r.lanes.getD l []).length
  · have := gridSum_setCellAt f r l i (r.cellAt l i).pass hb.1 hb.2
    rw [hf] at this
    omega
  · exact gridSum_setCellAt_oob f r l i _ hb

theorem gridSum_passCells_inv (f : Cell → Nat) (hf : ∀ cell, f cell.pass = f cell)
    (l len : Nat) : ∀ (n s : Nat) (r : Road),
    gridSum f (passCells r l s n len) = gridSum f r := by
  intro n
  induction n with
  | zero => intro s r; rfl
  | succ m ih =>
    intro s r
    show gridSum f (passCells (r.passAt l (s % len)) l (s + 1) m len) = _
    rw [ih (s + 1) (r.passAt l (s % len)), gridSum_passAt_inv f hf]

theorem sumPassed_passAt (r : Road) (l i : Nat)
    (hl : l < r.lanes.length) (hc : i < (r.lanes.getD l []).length) :
    sumPassed (r.passAt l i) = sumPassed r + 1 := by
  unfold passAt sumPassed
  have := gridSum_setCellAt Cell.cars_passed r l i (r.cellAt l i).pass hl hc
  unfold Cell.pass at this ⊢
  simp only at this
  omega

theorem WF_passAt (r : Road) (l i : Nat) (h : WF r) : WF (r.passAt l i) :=
  WF_setCellAt r l i _ h

theorem sumPassed_passCells (l len : Nat) : ∀ (n s : Nat) (r : Road),
    WF r → l < r.lanes.length → len = r.length → 0 < len →
    sumPassed (passCells r l s n len) = sumPassed r + n := by
  intro n
  induction n with
  | zero => intro s r _ _ _ _; rfl
  | succ m ih =>
    intro s r hWF hl hlen h0
    show sumPassed (passCells (r.passAt l (s % len)) l (s + 1) m len) = _
    have hmem : (r.lanes.getD l []).length = r.length := hWF _ (getD_mem _ _ _ hl)
    have hlt : s % len < (r.lanes.getD l []).length := by
      rw [hmem, ← hlen]; exact Nat.mod_lt _ h0
    rw [ih (s + 1) (r.passAt l (s % len)) (WF_passAt r l _ hWF)
        (by rw [passAt_lanes_length]; exact hl)
        (by rw [passAt_length]; exact hlen) h0]
    rw [sumPassed_passAt r l (s % len) hl hlt]
    omega

theorem gridAllB_passAt (f : Cell → Bool) (r : Road) (l i : Nat)
    (h : gridAllB f r) (hpass : ∀ cell, f cell = true → f cell.pass = true)
    (hnew : f Cell.new = true) : gridAllB f (r.passAt l i) :=
  gridAllB_setCellAt f r l i _ h (hpass _ (gridAllB_cellAt f r l i h hnew))

theorem gridAllB_passCells (f : Cell → Bool)
    (hpass : ∀ cell, f cell = true → f cell.pass = true) (hnew : f Cell.new = true)
    (l len : Nat) : ∀ (n s : Nat) (r : Road),
    gridAllB f r → gridAllB f (passCells r l s n len) := by
  intro n
  induction n with
  | zero => intro s r h; exact h
  | succ m ih =>
    intro s r h
    show gridAllB f (passCells (r.passAt l (s % len)) l (s + 1) m len)
    exact ih (s + 1) _ (gridAllB_passAt f r l _ h hpass hnew)

theorem WF_passCells (l len : Nat) : ∀ (n s : Nat) (r : Road),
    WF r → WF (passCells r l s n len) := by
  intro n
  induction n with
  | zero => intro s r h; exact h
  | succ m ih =>
    intro s r h
    show WF (passCells (r.passAt l (s % len)) l (s + 1) m len)
    exact ih (s + 1) _ (WF_passAt r l _ h)

end GridOps

section LaneChoice

theorem check_sides_left (r : Road) (l c : Nat)
    (h : (r.check_sides_clear l c).1 = true) : 0 < l := by
  unfold check_sides_clear at h
  simp only [Bool.and_eq_true, decide_eq_true_eq] at h
  exact h.1

theorem check_sides_right (r : Road) (l c : Nat)
    (h : (r.check_sides_clear l c).2 = true) : l + 1 ≠ r.lanes.length := by
  unfold check_sides_clear at h
  simp only [Bool.and_eq_true, decide_eq_true_eq] at h
  exact h.1

theorem determine_best_lane_left (r : Road) (l v : Nat) (lc rc st : Bool) (s : Nat)
    (h : r.determine_best_lane l v lc rc st = LaneSwitch.Left s) : lc = true := by
  cases hlc : lc with
  | true => rfl
  | false =>
    rw [hlc] at h
    unfold determine_best_lane at h
    simp only [Bool.false_eq_true, if_false] at h
    repeat' split at h
    all_goals exact LaneSwitch.noConfusion h

theorem determine_best_lane_right (r : Road) (l v : Nat) (lc rc st : Bool) (s : Nat)
    (h : r.determine_best_lane l v lc rc st = LaneSwitch.Right s) : rc = true := by
  cases hrc : rc with
  | true => rfl
  | false =>
    rw [hrc] at h
    unfold determine_best_lane at h
    simp only [Bool.false_eq_true, if_false] at h
    repeat' split at h
    all_goals exact LaneSwitch.noConfusion h

theorem determine_best_lane_stay (r : Road) (l v : Nat) (lc rc st : Bool)
    (hlc : lc = false) (hrc : rc = false) :
    ∃ s, r.determine_best_lane l v lc rc st = LaneSwitch.Stay s := by
  cases hres : r.determine_best_lane l v lc rc st with
  | Left s =>
    have := determine_best_lane_left r l v lc rc st s hres
    rw [hlc] at this; exact absurd this (by simp)
  | Right s =>
    have := determine_best_lane_right r l v lc rc st s hres
    rw [hrc] at this; exact absurd this (by simp)
  | Stay s => exact ⟨s, rfl⟩

end LaneChoice

section StepMaster

/-- Decomposition of a successful stepFresh into its named stages: the two
draws, the lane decision, the finished car, the counter notes, the recorded
passages and the final placement. -/
theorem stepFresh_master (r1 : Road) (l c : Nat) (car1 : Car) (lc rc : Bool) (r' : Road)
    (h : r1.stepFresh l c car1 lc rc = some r') :
    ∃ (stay dd : Bool) (g1 g2 : Rng) (best : LaneSwitch),
      best = Road.determine_best_lane { r1 with rng := g1 } l
        (car1.increase_speed).speed lc rc stay ∧
      (let car3 := (car1.increase_speed).finish best.driveable dd
       let len := r1.length
       let tli := ((l : Int) + best.to_offset).toNat
       let r4 := Road.note_car_obstacle { r1 with rng := g2 } l 0
       let r5 := if best.is_switch && decide (1 < car3.speed) then
                   r4.passAt l ((c + 1) % len) else r4
       let r6 := if best.is_switch && decide (0 < car3.speed) then
                   r5.note_car_obstacle tli (car3.speed - 1) else r5
       let r7 := passCells r6 tli (c + 1) car3.speed len
       (r7.cellAt tli ((c + car3.speed) % len)).blocked = false ∧
       (r7.cellAt tli ((c + car3.speed) % len)).car = none ∧
       r' = r7.setCellAt tli ((c + car3.speed) % len)
         { r7.cellAt tli ((c + car3.speed) % len) with car := some car3 }) := by
  unfold stepFresh at h
  simp only at h
  generalize hg1 : occurs r1.rng r1.stay_in_lane_probability = d1 at h
  obtain ⟨stay, g1⟩ := d1
  simp only at h
  generalize hbest : Road.determine_best_lane { r1 with rng := g1 } l
    (car1.increase_speed).speed lc rc stay = best at h
  generalize hd2 : (if best.is_switch = true then (false, g1)
    else occurs g1 r1.dilly_dally_probability) = d2 at h
  obtain ⟨dd, g2⟩ := d2
  simp only at h
  exact ⟨stay, dd, g1, g2, best, hbest.symm, putCarAt_eq_some _ _ _ _ _ h⟩

end StepMaster

section C1Bundle

/-- No car sits on a blocked cell. -/
def cellBlockedOK (cell : Cell) : Bool := !(cell.blocked && cell.car.isSome)

theorem ite_road_eq {γ : Type} (f : Road → γ) (b : Prop) [Decidable b] (x y : Road) (n : γ)
    (hx : f x = n) (hy : f y = n) : f (if b then x else y) = n := by
  split <;> assumption

theorem ite_road_prop (P : Road → Prop) (b : Prop) [Decidable b] (x y : Road)
    (hx : P x) (hy : P y) : P (if b then x else y) := by
  split <;> assumption

theorem gridSum_congr_lanes (f : Cell → Nat) (r r' : Road) (h : r'.lanes = r.lanes) :
    gridSum f r' = gridSum f r := by
  unfold gridSum; rw [h]

theorem gridAllB_congr_lanes (f : Cell → Bool) (r r' : Road) (h : r'.lanes = r.lanes)
    (hg : gridAllB f r) : gridAllB f r' := by
  unfold gridAllB; rw [h]; exact hg

theorem WF_congr (r r' : Road) (h1 : r'.lanes = r.lanes) (h2 : r'.length = r.length)
    (h : WF r) : WF r' := by
  unfold WF; rw [h1, h2]; exact h

theorem WF_note_car_obstacle (r : Road) (l d : Nat) (h : WF r) :
    WF (r.note_car_obstacle l d) := h

theorem WF_note_car_free (r : Road) (l : Nat) (b : Bool) (h : WF r) :
    WF (r.note_car_free l b) :=
  WF_congr r _ (note_car_free_lanes ..) (note_car_free_length ..) h

/-- The C1 invariant step for a fresh car: one car is added back, dimensions
are kept, and no car lands on a blocked cell. -/
theorem c1_stepFresh (r1 : Road) (l c : Nat) (car1 : Car) (lc rc : Bool) (r' : Road)
    (h : r1.stepFresh l c car1 lc rc = some r')
    (hWF : WF r1) (hl : l < r1.lanes.length) (hc : c < r1.length)
    (hlc : lc = true → 0 < l) (hrc : rc = true → l + 1 ≠ r1.lanes.length)
    (hblocked : gridAllB cellBlockedOK r1) :
    carCount r' = carCount r1 + 1 ∧ WF r' ∧ gridAllB cellBlockedOK r' := by
  obtain ⟨stay, dd, g1, g2, best, hbest, H⟩ := stepFresh_master r1 l c car1 lc rc r' h
  simp only at H
  obtain ⟨hb, hcar, heq⟩ := H
  have h0 : 0 < r1.length := by omega
  have htli : ((l : Int) + best.to_offset).toNat < r1.lanes.length := by
    cases best with
    | Stay s => simp [LaneSwitch.to_offset]; omega
    | Left s =>
      have := hlc (determine_best_lane_left _ _ _ _ _ _ _ hbest.symm)
      simp [LaneSwitch.to_offset]; omega
    | Right s =>
      have := hrc (determine_best_lane_right _ _ _ _ _ _ _ hbest.symm)
      simp [LaneSwitch.to_offset]; omega
  -- abbreviations matching the master decomposition
  set car3 := (car1.increase_speed).finish best.driveable dd with hcar3
  set tli := ((l : Int) + best.to_offset).toNat with htli_def
  set r4 := Road.note_car_obstacle { r1 with rng := g2 } l 0 with hr4
  set r5 := if best.is_switch && decide (1 < car3.speed) then
      r4.passAt l ((c + 1) % r1.length) else r4 with hr5
  set r6 := if best.is_switch && decide (0 < car3.speed) then
      r5.note_car_obstacle tli (car3.speed - 1) else r5 with hr6
  set r7 := passCells r6 tli (c + 1) car3.speed r1.length with hr7
  -- frame facts along the chain
  have hlanes4 : r4.lanes = r1.lanes := rfl
  have hlen4 : r4.length = r1.length := rfl
  have hWF4 : WF r4 := WF_congr r1 r4 hlanes4 hlen4 hWF
  have hWF5 : WF r5 := by
    rw [hr5]; exact ite_road_prop WF _ _ _ (WF_passAt r4 _ _ hWF4) hWF4
  have hWF6 : WF r6 := by
    rw [hr6]; exact ite_road_prop WF _ _ _ hWF5 hWF5
  have hWF7 : WF r7 := WF_passCells _ _ _ _ _ hWF6
  have hlen5 : r5.length = r1.length := by
    rw [hr5]; exact ite_road_eq Road.length _ _ _ _ (passAt_length ..) rfl
  have hlen6 : r6.length = r1.length := by
    rw [hr6]; exact ite_road_eq Road.length _ _ _ _ hlen5 hlen5
  have hlen7 : r7.length = r1.length := by rw [hr7, passCells_length]; exact hlen6
  have hll5 : r5.lanes.length = r1.lanes.length := by
    rw [hr5]; exact ite_road_eq (fun r => r.lanes.length) _ _ _ _ (passAt_lanes_length ..) rfl
  have hll6 : r6.lanes.length = r1.lanes.length := by
    rw [hr6]; exact ite_road_eq (fun r => r.lanes.length) _ _ _ _ hll5 hll5
  have hll7 : r7.lanes.length = r1.lanes.length := by
    rw [hr7, passCells_lanes_length]; exact hll6
  have htli7 : tli < r7.lanes.length := by rw [hll7]; exact htli
  have htc7 : (c + car3.speed) % r1.length < (r7.lanes.getD tli []).length := by
    rw [hWF7 _ (getD_mem _ _ _ htli7), hlen7]
    exact Nat.mod_lt _ h0
  -- car count
  have hcc4 : carCount r4 = carCount r1 := rfl
  have hcc5 : carCount r5 = carCount r1 := by
    rw [hr5]
    exact ite_road_eq carCount _ _ _ _
      ((gridSum_passAt_inv cellOcc (fun cell => rfl) r4 _ _).trans hcc4) hcc4
  have hcc6 : carCount r6 = carCount r1 := by
    rw [hr6]; exact ite_road_eq carCount _ _ _ _ hcc5 hcc5
  have hcc7 : carCount r7 = carCount r1 := by
    rw [hr7]
    exact (gridSum_passCells_inv cellOcc (fun cell => rfl) _ _ _ _ _).trans hcc6
  have hput := gridSum_setCellAt cellOcc r7 tli ((c + car3.speed) % r1.length)
    { r7.cellAt tli ((c + car3.speed) % r1.length) with car := some car3 } htli7 htc7
  have hocc0 : cellOcc (r7.cellAt tli ((c + car3.speed) % r1.length)) = 0 := by
    simp [cellOcc, hcar]
  have hocc1 : cellOcc
      { r7.cellAt tli ((c + car3.speed) % r1.length) with car := some car3 } = 1 := by
    simp [cellOcc]
  refine ⟨?_, ?_, ?_⟩
  · rw [heq]
    show gridSum cellOcc _ = gridSum cellOcc r1 + 1
    unfold carCount at hcc7
    simp only at hput hocc0 hocc1 ⊢
    omega
  · rw [heq]; exact WF_setCellAt r7 _ _ _ hWF7
  · -- no car on a blocked cell
    have hbl4 : gridAllB cellBlockedOK r4 := gridAllB_congr_lanes _ r1 r4 hlanes4 hblocked
    have hbl5 : gridAllB cellBlockedOK r5 := by
      rw [hr5]
      exact ite_road_prop (gridAllB cellBlockedOK) _ _ _
        (gridAllB_passAt cellBlockedOK r4 _ _ hbl4 (fun cell hcell => hcell) rfl) hbl4
    have hbl6 : gridAllB cellBlockedOK r6 := by
      rw [hr6]
      exact ite_road_prop (gridAllB cellBlockedOK) _ _ _
        (gridAllB_congr_lanes _ r5 _ rfl hbl5) hbl5
    have hbl7 : gridAllB cellBlockedOK r7 := by
      rw [hr7]
      exact gridAllB_passCells cellBlockedOK (fun cell hcell => hcell) rfl _ _ _ _ _ hbl6
    rw [heq]
    refine gridAllB_setCellAt _ r7 _ _ _ hbl7 ?_
    simp [cellBlockedOK, hb]

/-- The C1 invariant step for an already-moved car: it is restored in place. -/
theorem c1_stepStale (r1 : Road) (l c : Nat) (car1 : Car) (r' : Road)
    (h : r1.stepStale l c car1 = some r')
    (hWF : WF r1) (hl : l < r1.lanes.length) (hc : c < r1.length)
    (hblocked : gridAllB cellBlockedOK r1) :
    carCount r' = carCount r1 + 1 ∧ WF r' ∧ gridAllB cellBlockedOK r' := by
  unfold stepStale at h
  obtain ⟨hb, hcar, heq⟩ := putCarAt_eq_some _ _ _ _ _ h
  have hWFn : WF (r1.note_car_obstacle l 0) := WF_note_car_obstacle r1 l 0 hWF
  have hbln : gridAllB cellBlockedOK (r1.note_car_obstacle l 0) :=
    gridAllB_congr_lanes _ r1 _ rfl hblocked
  have hbl : l < (r1.note_car_obstacle l 0).lanes.length := hl
  have hbc : c < ((r1.note_car_obstacle l 0).lanes.getD l []).length := by
    rw [hWFn _ (getD_mem _ _ _ hbl)]
    exact hc
  have hput := gridSum_setCellAt cellOcc (r1.note_car_obstacle l 0) l c
    { (r1.note_car_obstacle l 0).cellAt l c with car := some car1 } hbl hbc
  have hocc0 : cellOcc ((r1.note_car_obstacle l 0).cellAt l c) = 0 := by
    simp [cellOcc, hcar]
  have hocc1 : cellOcc
      { (r1.note_car_obstacle l 0).cellAt l c with car := some car1 } = 1 := by
    simp [cellOcc]
  refine ⟨?_, ?_, ?_⟩
  · rw [heq]
    have hn : carCount (r1.note_car_obstacle l 0) = carCount r1 := rfl
    unfold carCount at hn ⊢
    omega
  · rw [heq]; exact WF_setCellAt _ _ _ _ hWFn
  · rw [heq]
    refine gridAllB_setCellAt _ _ _ _ _ hbln ?_
    simp [cellBlockedOK, hb]

/-- The C1 invariant step for one swept position. -/
theorem c1_processCell (r : Road) (l c : Nat) (r' : Road)
    (h : r.processCell l c = some r')
    (hWF : WF r) (hl : l < r.lanes.length) (hc : c < r.length)
    (hblocked : gridAllB cellBlockedOK r) :
    carCount r' = carCount r ∧ WF r' ∧ gridAllB cellBlockedOK r' := by
  unfold processCell at h
  simp only at h
  split at h
  · obtain rfl := Option.some_injective _ h
    exact ⟨gridSum_congr_lanes _ _ _ (note_car_free_lanes ..),
      WF_note_car_free r l true hWF,
      gridAllB_congr_lanes _ _ _ (note_car_free_lanes ..) hblocked⟩
  · split at h
    · obtain rfl := Option.some_injective _ h
      exact ⟨gridSum_congr_lanes _ _ _ (note_car_free_lanes ..),
        WF_note_car_free r l false hWF,
        gridAllB_congr_lanes _ _ _ (note_car_free_lanes ..) hblocked⟩
    · rename_i car0 hcar0
      have hc' : c < (r.lanes.getD l []).length := by
        rw [hWF _ (getD_mem _ _ _ hl)]; exact hc
      have htake := gridSum_setCellAt cellOcc r l c
        { r.cellAt l c with car := none } hl hc'
      have hocc1 : cellOcc (r.cellAt l c) = 1 := by simp [cellOcc, hcar0]
      have hocc0 : cellOcc { r.cellAt l c with car := none } = 0 := by simp [cellOcc]
      have hWF1 : WF (r.setCellAt l c { r.cellAt l c with car := none }) :=
        WF_setCellAt _ _ _ _ hWF
      have hl1 : l < (r.setCellAt l c { r.cellAt l c with car := none }).lanes.length := by
        rw [setCellAt_lanes_length]; exact hl
      have hc1 : c < (r.setCellAt l c { r.cellAt l c with car := none }).length := hc
      have hbl1 : gridAllB cellBlockedOK
          (r.setCellAt l c { r.cellAt l c with car := none }) := by
        refine gridAllB_setCellAt _ _ _ _ _ hblocked ?_
        simp [cellBlockedOK]
      split at h
      · obtain ⟨hcnt, hWF', hbl'⟩ := c1_stepFresh _ l c _ _ _ _ h hWF1 hl1 hc1
          (fun hs => check_sides_left r l c hs)
          (fun hs => by
            rw [setCellAt_lanes_length]; exact check_sides_right r l c hs)
          hbl1
        refine ⟨?_, hWF', hbl'⟩
        unfold carCount at hcnt ⊢
        simp only at htake hocc0 hocc1 hcnt ⊢
        omega
      · obtain ⟨hcnt, hWF', hbl'⟩ := c1_stepStale _ l c _ _ h hWF1 hl1 hc1 hbl1
        refine ⟨?_, hWF', hbl'⟩
        unfold carCount at hcnt ⊢
        simp only at htake hocc0 hocc1 hcnt ⊢
        omega

theorem sweepPositions_bounds (L N : Nat) :
    ∀ p ∈ sweepPositions L N, p.1 < N ∧ p.2 < L := by
  intro p hp
  unfold sweepPositions at hp
  rw [List.mem_flatMap] at hp
  obtain ⟨cc, hcc, hp⟩ := hp
  rw [List.mem_map] at hp
  obtain ⟨ll, hll, rfl⟩ := hp
  rw [List.mem_reverse, List.mem_range] at hcc
  rw [List.mem_range] at hll
  exact ⟨hll, hcc⟩

theorem c1_sweepGo : ∀ (ps : List (Nat × Nat)) (r r' : Road),
    (∀ p ∈ ps, p.1 < r.lanes.length ∧ p.2 < r.length) →
    WF r → gridAllB cellBlockedOK r → sweepGo r ps = some r' →
    carCount r' = carCount r ∧ WF r' ∧ gridAllB cellBlockedOK r' := by
  intro ps
  induction ps with
  | nil =>
    intro r r' _ hWF hbl h
    obtain rfl := Option.some_injective _ h
    exact ⟨rfl, hWF, hbl⟩
  | cons p ps ih =>
    intro r r' hbounds hWF hbl h
    rw [sweepGo] at h
    cases hpc : r.processCell p.1 p.2 with
    | none => rw [hpc] at h; exact absurd h (by simp)
    | some rMid =>
      rw [hpc] at h
      obtain ⟨hb1, hb2⟩ := hbounds p (List.mem_cons_self ..)
      obtain ⟨hcnt, hWFm, hblm⟩ := c1_processCell r p.1 p.2 rMid hpc hWF hb1 hb2 hbl
      obtain ⟨hf1, hf2, _⟩ := framePres_processCell r p.1 p.2 rMid hpc
      obtain ⟨hcnt', hWF', hbl'⟩ := ih rMid r'
        (fun q hq => by
          obtain ⟨hq1, hq2⟩ := hbounds q (List.mem_cons_of_mem _ hq)
          have hfr := framePres_processCell r p.1 p.2 rMid hpc
          exact ⟨by rw [hfr.2.2.2.2.2.2.2.2]; exact hq1, by rw [hfr.2.1]; exact hq2⟩)
        hWFm hblm h
      exact ⟨hcnt'.trans hcnt, hWF', hbl'⟩

@[simp] theorem roundPrep_lanes (r : Road) : r.roundPrep.lanes = r.lanes := by
  unfold roundPrep; rw [prepare_lanes]; rfl
@[simp] theorem roundPrep_length (r : Road) : r.roundPrep.length = r.length := by
  unfold roundPrep; rw [prepare_length]; rfl
@[simp] theorem roundPrep_n_lanes (r : Road) : r.roundPrep.n_lanes = r.n_lanes := by
  unfold roundPrep; rw [prepare_n_lanes]; rfl
@[simp] theorem roundPrep_n_cars (r : Road) : r.roundPrep.n_cars = r.n_cars := by
  unfold roundPrep; rw [prepare_n_cars]; rfl
@[simp] theorem roundPrep_rounds (r : Road) : r.roundPrep.rounds = r.rounds + 1 := by
  unfold roundPrep; rw [prepare_rounds]; rfl
@[simp] theorem roundPrep_flop (r : Road) :
    r.roundPrep.overflow_flip_flop = r.overflow_flip_flop := by
  unfold roundPrep; rw [prepare_flop]; rfl
@[simp] theorem roundPrep_dilly (r : Road) :
    r.roundPrep.dilly_dally_probability = r.dilly_dally_probability := by
  unfold roundPrep; rw [prepare_dilly]; rfl
@[simp] theorem roundPrep_stayp (r : Road) :
    r.roundPrep.stay_in_lane_probability = r.stay_in_lane_probability := by
  unfold roundPrep; rw [prepare_stayp]; rfl
@[simp] theorem roundPrep_red (r : Road) :
    r.roundPrep.traffic_lights_red = ((r.rounds + 1) % 100 != (r.rounds + 1) % 200) := by
  unfold roundPrep; rw [prepare_red]; rfl

/-- The C1 invariant is preserved by a full successful round, and the n_cars
field never changes. -/
theorem c1_round (r r' : Road) (h : r.round = some r')
    (hWF : WF r) (hbl : gridAllB cellBlockedOK r) :
    carCount r' = carCount r ∧ WF r' ∧ gridAllB cellBlockedOK r' ∧
      r'.n_cars = r.n_cars := by
  unfold round at h
  simp only at h
  cases hsw : sweepGo r.roundPrep
      (sweepPositions r.roundPrep.length r.roundPrep.lanes.length) with
  | none => rw [hsw] at h; exact absurd h (by simp)
  | some r1 =>
    rw [hsw] at h
    obtain rfl := Option.some_injective _ h
    have hWFp : WF r.roundPrep :=
      WF_congr r _ (roundPrep_lanes r) (roundPrep_length r) hWF
    have hblp : gridAllB cellBlockedOK r.roundPrep :=
      gridAllB_congr_lanes _ r _ (roundPrep_lanes r) hbl
    obtain ⟨hcnt, hWF1, hbl1⟩ := c1_sweepGo _ _ _
      (fun p hp => by
        have := sweepPositions_bounds r.roundPrep.length r.roundPrep.lanes.length p hp
        exact ⟨this.1, this.2⟩)
      hWFp hblp hsw
    have hfr := framePres_sweepGo _ _ _ hsw
    refine ⟨?_, ?_, ?_, ?_⟩
    · exact (gridSum_congr_lanes cellOcc r1 _ rfl).trans
        (hcnt.trans (gridSum_congr_lanes cellOcc r _ (roundPrep_lanes r)))
    · exact WF_congr r1 _ rfl rfl hWF1
    · exact gridAllB_congr_lanes _ r1 _ rfl hbl1
    · show r1.n_cars = r.n_cars
      rw [hfr.2.2.2.1]
      exact roundPrep_n_cars r

/-- The C1 invariant is preserved by any number of rounds. -/
theorem c1_iterate : ∀ (n : Nat) (r r' : Road), iterateRounds n r = some r' →
    WF r → gridAllB cellBlockedOK r →
    carCount r' = carCount r ∧ WF r' ∧ gridAllB cellBlockedOK r' ∧
      r'.n_cars = r.n_cars := by
  intro n
  induction n with
  | zero =>
    intro r r' h hWF hbl
    obtain rfl := Option.some_injective _ h
    exact ⟨rfl, hWF, hbl, rfl⟩
  | succ m ih =>
    intro r r' h hWF hbl
    rw [iterateRounds] at h
    cases hr : r.round with
    | none => rw [hr] at h; exact absurd h (by simp)
    | some rMid =>
      rw [hr] at h
      obtain ⟨hcnt, hWFm, hblm, hnc⟩ := c1_round r rMid hr hWF hbl
      obtain ⟨hcnt', hWF', hbl', hnc'⟩ := ih rMid r' h hWFm hblm
      exact ⟨hcnt'.trans hcnt, hWF', hbl', hnc'.trans hnc⟩

end C1Bundle

section Construction

/-- Sum of a cell statistic over a list of lanes. -/
def lanesSum (f : Cell → Nat) (lanes : List (List Cell)) : Nat :=
  (lanes.map (laneSum f)).sum

/-- A cell predicate holding on every cell of a list of lanes. -/
def lanesAllB (f : Cell → Bool) (lanes : List (List Cell)) : Prop :=
  ∀ lane ∈ lanes, ∀ cell ∈ lane, f cell = true

theorem lanesSum_eq_zero (f : Cell → Nat) (lanes : List (List Cell))
    (h : ∀ lane ∈ lanes, ∀ cell ∈ lane, f cell = 0) : lanesSum f lanes = 0 := by
  unfold lanesSum
  refine List.sum_eq_zero ?_
  intro x hx
  rw [List.mem_map] at hx
  obtain ⟨lane, hlane, rfl⟩ := hx
  unfold laneSum
  refine List.sum_eq_zero ?_
  intro y hy
  rw [List.mem_map] at hy
  obtain ⟨cell, hcell, rfl⟩ := hy
  exact h lane hlane cell hcell

theorem lanesAllB_mono (f g : Cell → Bool) (lanes : List (List Cell))
    (himp : ∀ cell, f cell = true → g cell = true) (h : lanesAllB f lanes) :
    lanesAllB g lanes :=
  fun lane hlane cell hcell => himp cell (h lane hlane cell hcell)

theorem free_false_parts (cell : Cell) (h : cell.free false = true) :
    cell.blocked = false ∧ cell.car = none := by
  unfold Cell.free Cell.is_red_light at h
  simp only [Bool.and_false, Bool.not_false, Bool.and_true, Bool.and_eq_true,
    Bool.not_eq_true', Option.isNone_iff_eq_none] at h
  exact ⟨h.1, h.2⟩

theorem put_car_of_free (cell : Cell) (k : Car) (h : cell.free false = true) :
    cell.put_car k = ({ cell with car := some k }, none) := by
  obtain ⟨hb, hc⟩ := free_false_parts cell h
  unfold Cell.put_car
  rw [hb, hc]
  simp

/-- All invariants of one spawning loop: the lane keeps its length, the car
count rises by exactly the yet-unmet part of the target, and any cell
predicate closed under placing a fresh car on a free cell is preserved. -/
theorem spawnLoop_props (bp : VehicleBlueprint) : ∀ (fuel : Nat) (g : Rng)
    (lane : List Cell) (target spawned index : Nat) (lane' : List Cell) (g' : Rng),
    spawnLoop bp fuel g lane target spawned index = some (lane', g') →
    (lane.length = 0 ∨ index < lane.length) →
    lane'.length = lane.length ∧
    laneSum cellOcc lane' = laneSum cellOcc lane + (target - spawned) ∧
    ∀ (f : Cell → Bool),
      (∀ cell, f cell = true → cell.free false = true →
        f { cell with car := some (Car.new bp) } = true) →
      (∀ cell ∈ lane, f cell = true) → ∀ cell ∈ lane', f cell = true := by
  intro fuel
  induction fuel with
  | zero => intro g lane target spawned index lane' g' h _; exact absurd h (by simp [spawnLoop])
  | succ m ih =>
    intro g lane target spawned index lane' g' h hidx
    rw [spawnLoop] at h
    split at h
    · obtain ⟨rfl, rfl⟩ := Prod.mk.injEq .. ▸ Option.some_injective _ h
      refine ⟨rfl, by omega, fun f _ hall => hall⟩
    · rename_i hlt
      split at h
      · exact absurd h (by simp)
      · rename_i hlen0
        simp only at h
        split at h
        · rename_i hdraw
          have hfree : (lane.getD index Cell.new).free false = true := by
            rw [Bool.and_eq_true] at hdraw; exact hdraw.2
          rw [put_car_of_free _ _ hfree] at h
          simp only at h
          have hib : index < lane.length := by
            rcases hidx with h0 | h0
            · exact absurd h0 hlen0
            · exact h0
          obtain ⟨hL, hS, hF⟩ := ih _ _ _ _ _ _ _ h
            (Or.inr (by rw [List.length_set]; exact Nat.mod_lt _ (Nat.pos_of_ne_zero hlen0)))
          rw [List.length_set] at hL
          refine ⟨hL, ?_, ?_⟩
          · have hset := sum_map_set cellOcc Cell.new lane index
              { lane.getD index Cell.new with car := some (Car.new bp) } hib
            simp only at hset
            have hocc0 : cellOcc (lane.getD index Cell.new) = 0 := by
              unfold cellOcc
              rw [(free_false_parts _ hfree).2]
              simp
            have hocc1 : cellOcc
                { lane.getD index Cell.new with car := some (Car.new bp) } = 1 := by
              simp [cellOcc]
            simp only at hocc1
            unfold laneSum at hS ⊢
            omega
          · intro f hput hall
            refine hF f hput ?_
            intro cell hcell
            rcases List.mem_or_eq_of_mem_set hcell with hmem | rfl
            · exact hall cell hmem
            · exact hput _ (hall _ (getD_mem _ _ _ hib)) hfree
        · obtain ⟨hL, hS, hF⟩ := ih _ _ _ _ _ _ _ h
            (Or.inr (Nat.mod_lt _ (Nat.pos_of_ne_zero hlen0)))
          exact ⟨hL, hS, hF⟩

theorem addCarsLanes_props (bp : VehicleBlueprint) (fuel : Nat) :
    ∀ (lanes : List (List Cell)) (g : Rng) (us : List Nat)
      (lanes' : List (List Cell)) (g' : Rng) (n : Nat),
    addCarsLanes bp fuel g lanes us = some (lanes', g', n) →
    (∀ L, (∀ lane ∈ lanes, lane.length = L) → ∀ lane ∈ lanes', lane.length = L) ∧
    lanes'.length = lanes.length ∧
    lanesSum cellOcc lanes' = lanesSum cellOcc lanes + n ∧
    ∀ (f : Cell → Bool),
      (∀ cell, f cell = true → cell.free false = true →
        f { cell with car := some (Car.new bp) } = true) →
      lanesAllB f lanes → lanesAllB f lanes' := by
  intro lanes
  induction lanes with
  | nil =>
    intro g us lanes' g' n h
    cases us with
    | nil =>
      rw [addCarsLanes] at h
      obtain ⟨rfl, rfl, rfl⟩ := Prod.mk.injEq .. ▸ Option.some_injective _ h
      exact ⟨fun L hL => hL, rfl, (Nat.add_zero _).symm, fun f _ hall => hall⟩
    | cons u us =>
      rw [addCarsLanes] at h
      obtain ⟨rfl, rfl, rfl⟩ := Prod.mk.injEq .. ▸ Option.some_injective _ h
      exact ⟨fun L hL => hL, rfl, (Nat.add_zero _).symm, fun f _ hall => hall⟩
  | cons lane rest ih =>
    intro g us lanes' g' n h
    cases us with
    | nil =>
      rw [addCarsLanes] at h
      obtain ⟨rfl, rfl, rfl⟩ := Prod.mk.injEq .. ▸ Option.some_injective _ h
      exact ⟨fun L hL => hL, rfl, (Nat.add_zero _).symm, fun f _ hall => hall⟩
    | cons u us =>
      rw [addCarsLanes] at h
      cases hspawn : spawnLoop bp fuel g lane
          ((ratRound (qmul bp.traffic_density (u : ℚ))).toNat) 0 0 with
      | none => rw [hspawn] at h; exact absurd h (by simp)
      | some q1 =>
        obtain ⟨lane1, g1⟩ := q1
        rw [hspawn] at h
        simp only at h
        cases hrest : addCarsLanes bp fuel g1 rest us with
        | none => rw [hrest] at h; exact absurd h (by simp)
        | some q2 =>
          obtain ⟨lanes2, g2, n2⟩ := q2
          rw [hrest] at h
          simp only at h
          obtain ⟨hL1, hS1, hF1⟩ := spawnLoop_props bp fuel g lane _ 0 0 lane1 g1 hspawn
            (by omega)
          obtain ⟨hLr, hLenr, hSr, hFr⟩ := ih g1 us lanes2 g2 n2 hrest
          obtain ⟨rfl, rfl, rfl⟩ := Prod.mk.injEq .. ▸ Option.some_injective _ h
          refine ⟨?_, ?_, ?_, ?_⟩
          · intro L hL lane2 hmem
            rcases List.mem_cons.mp hmem with rfl | hmem
            · rw [hL1]; exact hL _ (List.mem_cons_self ..)
            · exact hLr L (fun q hq => hL q (List.mem_cons_of_mem _ hq)) lane2 hmem
          · simp [hLenr]
          · unfold lanesSum at hSr
            simp only [lanesSum, List.map_cons, List.sum_cons]
            omega
          · intro f hput hall
            intro lane2 hmem cell hcell
            rcases List.mem_cons.mp hmem with rfl | hmem
            · exact hF1 f hput (fun q hq => hall _ (List.mem_cons_self ..) q hq) cell hcell
            · exact hFr f hput
                (fun q hq => hall q (List.mem_cons_of_mem _ hq)) lane2 hmem cell hcell

theorem addCarsBps_props (fuel : Nat) (unblocked : List Nat) :
    ∀ (bps : List VehicleBlueprint) (g : Rng) (lanes : List (List Cell))
      (lanes' : List (List Cell)) (g' : Rng) (n : Nat),
    addCarsBps fuel unblocked g lanes bps = some (lanes', g', n) →
    (∀ L, (∀ lane ∈ lanes, lane.length = L) → ∀ lane ∈ lanes', lane.length = L) ∧
    lanes'.length = lanes.length ∧
    lanesSum cellOcc lanes' = lanesSum cellOcc lanes + n ∧
    ∀ (f : Cell → Bool),
      (∀ bp ∈ bps, ∀ cell, f cell = true → cell.free false = true →
        f { cell with car := some (Car.new bp) } = true) →
      lanesAllB f lanes → lanesAllB f lanes' := by
  intro bps
  induction bps with
  | nil =>
    intro g lanes lanes' g' n h
    rw [addCarsBps] at h
    obtain ⟨rfl, rfl, rfl⟩ := Prod.mk.injEq .. ▸ Option.some_injective _ h
    exact ⟨fun L hL => hL, rfl, (Nat.add_zero _).symm, fun f _ hall => hall⟩
  | cons bp bps ih =>
    intro g lanes lanes' g' n h
    rw [addCarsBps] at h
    cases hlanes : addCarsLanes bp fuel g lanes unblocked with
    | none => rw [hlanes] at h; exact absurd h (by simp)
    | some q1 =>
      obtain ⟨lanes1, g1, n1⟩ := q1
      rw [hlanes] at h
      simp only at h
      cases hrest : addCarsBps fuel unblocked g1 lanes1 bps with
      | none => rw [hrest] at h; exact absurd h (by simp)
      | some q2 =>
        obtain ⟨lanes2, g2, n2⟩ := q2
        rw [hrest] at h
        simp only at h
        obtain ⟨hL1, hLen1, hS1, hF1⟩ := addCarsLanes_props bp fuel lanes g unblocked
          lanes1 g1 n1 hlanes
        obtain ⟨hL2, hLen2, hS2, hF2⟩ := ih g1 lanes1 lanes2 g2 n2 hrest
        obtain ⟨rfl, rfl, rfl⟩ := Prod.mk.injEq .. ▸ Option.some_injective _ h
        refine ⟨?_, ?_, ?_, ?_⟩
        · intro L hL
          exact hL2 L (hL1 L hL)
        · rw [hLen2, hLen1]
        · omega
        · intro f hput hall
          exact hF2 f (fun q hq => hput q (List.mem_cons_of_mem _ hq))
            (hF1 f (hput bp (List.mem_cons_self ..)) hall)

theorem blockRangeGo_props : ∀ (is : List Nat) (lane : List Cell) (u : Nat)
    (lane' : List Cell) (u' : Nat),
    blockRangeGo lane u is = some (lane', u') →
    lane'.length = lane.length ∧
    ∀ (f : Cell → Bool), (∀ cell, f cell = true → f cell.block = true) →
      (∀ cell ∈ lane, f cell = true) → ∀ cell ∈ lane', f cell = true := by
  intro is
  induction is with
  | nil =>
    intro lane u lane' u' h
    rw [blockRangeGo.eq_def] at h
    simp only at h
    obtain ⟨rfl, rfl⟩ := Prod.mk.injEq .. ▸ Option.some_injective _ h
    exact ⟨rfl, fun f _ hall => hall⟩
  | cons i is ih =>
    intro lane u lane' u' h
    rw [blockRangeGo.eq_def] at h
    simp only at h
    split at h
    · rename_i hib
      split at h
      · exact absurd h (by simp)
      · rename_i v
        obtain ⟨hL, hF⟩ := ih _ _ _ _ h
        rw [List.length_set] at hL
        refine ⟨hL, ?_⟩
        intro f hblock hall
        refine hF f hblock ?_
        intro cell hcell
        rcases List.mem_or_eq_of_mem_set hcell with hmem | rfl
        · exact hall cell hmem
        · exact hblock _ (hall _ (getD_mem _ _ _ hib))
    · exact absurd h (by simp)

theorem blockCellsGo_props : ∀ (bs : List CellLocationRange) (lanes : List (List Cell))
    (unbl : List Nat) (lanes' : List (List Cell)) (unbl' : List Nat),
    blockCellsGo lanes unbl bs = some (lanes', unbl') →
    (∀ L, (∀ lane ∈ lanes, lane.length = L) → ∀ lane ∈ lanes', lane.length = L) ∧
    lanes'.length = lanes.length ∧
    ∀ (f : Cell → Bool), (∀ cell, f cell = true → f cell.block = true) →
      lanesAllB f lanes → lanesAllB f lanes' := by
  intro bs
  induction bs with
  | nil =>
    intro lanes unbl lanes' unbl' h
    rw [blockCellsGo] at h
    obtain ⟨rfl, rfl⟩ := Prod.mk.injEq .. ▸ Option.some_injective _ h
    exact ⟨fun L hL => hL, rfl, fun f _ hall => hall⟩
  | cons b bs ih =>
    intro lanes unbl lanes' unbl' h
    rw [blockCellsGo] at h
    split at h
    · rename_i hbl
      cases hrange : blockRangeGo (lanes.getD b.lane []) (unbl.getD b.lane 0)
          (List.range' b.start (b.stop - b.start)) with
      | none => rw [hrange] at h; exact absurd h (by simp)
      | some q =>
        rw [hrange] at h
        simp only at h
        obtain ⟨lane1, u1⟩ := q
        obtain ⟨hL1, hF1⟩ := blockRangeGo_props _ _ _ _ _ hrange
        obtain ⟨hL2, hLen2, hF2⟩ := ih _ _ _ _ h
        rw [List.length_set] at hLen2
        refine ⟨?_, hLen2, ?_⟩
        · intro L hL
          refine hL2 L ?_
          intro lane2 hmem
          rcases List.mem_or_eq_of_mem_set hmem with hmem | rfl
          · exact hL _ hmem
          · rw [hL1]; exact hL _ (getD_mem _ _ _ hbl)
        · intro f hblock hall
          refine hF2 f hblock ?_
          intro lane2 hmem cell hcell
          rcases List.mem_or_eq_of_mem_set hmem with hmem | rfl
          · exact hall _ hmem cell hcell
          · exact hF1 f hblock (fun q hq => hall _ (getD_mem _ _ _ hbl) q hq) cell hcell
    · exact absurd h (by simp)

theorem add_traffic_lights_props : ∀ (tls : List CellLocation)
    (lanes : List (List Cell)) (lanes' : List (List Cell)),
    add_traffic_lights lanes tls = some lanes' →
    (∀ L, (∀ lane ∈ lanes, lane.length = L) → ∀ lane ∈ lanes', lane.length = L) ∧
    lanes'.length = lanes.length ∧
    ∀ (f : Cell → Bool), (∀ cell, f cell = true → f cell.make_traffic_light = true) →
      lanesAllB f lanes → lanesAllB f lanes' := by
  intro tls
  induction tls with
  | nil =>
    intro lanes lanes' h
    rw [add_traffic_lights] at h
    obtain rfl := Option.some_injective _ h
    exact ⟨fun L hL => hL, rfl, fun f _ hall => hall⟩
  | cons tl tls ih =>
    intro lanes lanes' h
    rw [add_traffic_lights] at h
    split at h
    · rename_i hin
      obtain ⟨hL2, hLen2, hF2⟩ := ih _ _ h
      rw [List.length_set] at hLen2
      refine ⟨?_, hLen2, ?_⟩
      · intro L hL
        refine hL2 L ?_
        intro lane2 hmem
        rcases List.mem_or_eq_of_mem_set hmem with hmem | rfl
        · exact hL _ hmem
        · rw [List.length_set]; exact hL _ (getD_mem _ _ _ hin.1)
      · intro f htl hall
        refine hF2 f htl ?_
        intro lane2 hmem cell hcell
        rcases List.mem_or_eq_of_mem_set hmem with hmem | rfl
        · exact hall _ hmem cell hcell
        · rcases List.mem_or_eq_of_mem_set hcell with hc2 | rfl
          · exact hall _ (getD_mem _ _ _ hin.1) cell hc2
          · exact htl _ (hall _ (getD_mem _ _ _ hin.1) _ (getD_mem _ _ _ hin.2))
    · exact absurd h (by simp)

/-- Pre-spawn cell state: no car yet and no passage recorded. -/
def preOK (cell : Cell) : Bool := cell.car.isNone && (cell.cars_passed == 0)

/-- Post-construction cell state, for an arbitrary car predicate p. -/
def finOK (p : Car → Bool) (cell : Cell) : Bool :=
  cellBlockedOK cell && (cell.cars_passed == 0) && (decide (cellDist cell = 0)) &&
    cellCarsAll p cell

theorem preOK_to_finOK (p : Car → Bool) (cell : Cell) (h : preOK cell = true) :
    finOK p cell = true := by
  unfold preOK at h
  rw [Bool.and_eq_true, Option.isNone_iff_eq_none] at h
  unfold finOK cellBlockedOK cellDist cellCarsAll
  rw [h.1]
  simp [h.2]

theorem finOK_put (p : Car → Bool) (bp : VehicleBlueprint) (hp : p (Car.new bp) = true)
    (cell : Cell) (hf : finOK p cell = true) (hfree : cell.free false = true) :
    finOK p { cell with car := some (Car.new bp) } = true := by
  obtain ⟨hb, hc⟩ := free_false_parts cell hfree
  unfold finOK cellBlockedOK cellDist cellCarsAll at hf ⊢
  rw [hc] at hf
  simp only [Bool.and_eq_true] at hf
  simp [hb, Car.new]
  refine ⟨?_, ?_⟩
  · simpa using hf.1.1.2
  · exact hp

theorem finOK_passed (p : Car → Bool) (cell : Cell) (h : finOK p cell = true) :
    cell.cars_passed = 0 := by
  unfold finOK at h
  simp only [Bool.and_eq_true, beq_iff_eq] at h
  exact h.1.1.2

theorem finOK_dist (p : Car → Bool) (cell : Cell) (h : finOK p cell = true) :
    cellDist cell = 0 := by
  unfold finOK at h
  simp only [Bool.and_eq_true, decide_eq_true_eq] at h
  exact h.1.2

theorem finOK_blocked (p : Car → Bool) (cell : Cell) (h : finOK p cell = true) :
    cellBlockedOK cell = true := by
  unfold finOK at h
  simp only [Bool.and_eq_true] at h
  exact h.1.1.1

theorem finOK_cars (p : Car → Bool) (cell : Cell) (h : finOK p cell = true) :
    cellCarsAll p cell = true := by
  unfold finOK at h
  simp only [Bool.and_eq_true] at h
  exact h.2

/-- Everything Road::new guarantees about the road it returns. -/
theorem new_props (fuel lanes_n length : Nat) (bps : List VehicleBlueprint)
    (d s : ℚ) (blk : List CellLocationRange) (tls : List CellLocation) (g : Rng)
    (r0 : Road) (h : Road.new fuel lanes_n length bps d s blk tls g = some r0)
    (p : Car → Bool) (hp : ∀ bp ∈ bps, p (Car.new bp) = true) :
    WF r0 ∧ r0.lanes.length = lanes_n ∧ r0.length = length ∧ r0.n_lanes = lanes_n ∧
    carCount r0 = r0.n_cars ∧ gridAllB cellBlockedOK r0 ∧
    sumPassed r0 = 0 ∧ sumDistance r0 = 0 ∧
    gridAllB (cellCarsAll p) r0 ∧
    r0.rounds = 0 ∧ r0.overflow_flip_flop = FlipFlop.new ∧
    r0.traffic_lights_red = false := by
  unfold new at h
  split at h
  · cases hblk : block_cells (create_lanes_and_cells lanes_n length) length blk with
    | none => rw [hblk] at h; exact absurd h (by simp)
    | some q1 =>
      obtain ⟨lanes1, unbl⟩ := q1
      rw [hblk] at h
      simp only at h
      cases htl : add_traffic_lights lanes1 tls with
      | none => rw [htl] at h; exact absurd h (by simp)
      | some lanes2 =>
        rw [htl] at h
        simp only at h
        cases hac : add_cars fuel lanes2 unbl g bps with
        | none => rw [hac] at h; exact absurd h (by simp)
        | some q3 =>
          obtain ⟨lanes3, g3, ncars⟩ := q3
          rw [hac] at h
          simp only at h
          obtain rfl := Option.some_injective _ h
          -- stage facts
          have hcreate_len : ∀ lane ∈ create_lanes_and_cells lanes_n length,
              lane.length = length := by
            intro lane hmem
            unfold create_lanes_and_cells at hmem
            rw [List.eq_of_mem_replicate hmem]
            exact List.length_replicate ..
          have hcreate_pre : lanesAllB preOK (create_lanes_and_cells lanes_n length) := by
            intro lane hmem cell hcell
            unfold create_lanes_and_cells at hmem
            rw [List.eq_of_mem_replicate hmem] at hcell
            rw [List.eq_of_mem_replicate hcell]
            rfl
          unfold block_cells at hblk
          obtain ⟨hL1, hLen1, hF1⟩ := blockCellsGo_props _ _ _ _ _ hblk
          obtain ⟨hL2, hLen2, hF2⟩ := add_traffic_lights_props _ _ _ htl
          unfold add_cars at hac
          simp only at hac
          split at hac
          · obtain ⟨hL3, hLen3, hS3, hF3⟩ := addCarsBps_props _ _ _ _ _ _ _ _ hac
            have hlen1 : ∀ lane ∈ lanes1, lane.length = length := hL1 length hcreate_len
            have hlen2 : ∀ lane ∈ lanes2, lane.length = length := hL2 length hlen1
            have hlen3 : ∀ lane ∈ lanes3, lane.length = length := hL3 length hlen2
            have hpre1 : lanesAllB preOK lanes1 :=
              hF1 preOK (fun cell hc => hc) hcreate_pre
            have hpre2 : lanesAllB preOK lanes2 :=
              hF2 preOK (fun cell hc => hc) hpre1
            have hfin2 : lanesAllB (finOK p) lanes2 :=
              lanesAllB_mono _ _ _ (preOK_to_finOK p) hpre2
            have hfin3 : lanesAllB (finOK p) lanes3 :=
              hF3 (finOK p) (fun bp hbp cell hc hfree => finOK_put p bp (hp bp hbp) cell hc hfree) hfin2
            have hocc2 : lanesSum cellOcc lanes2 = 0 := by
              refine lanesSum_eq_zero _ _ ?_
              intro lane hlane cell hcell
              have := hpre2 lane hlane cell hcell
              unfold preOK at this
              rw [Bool.and_eq_true, Option.isNone_iff_eq_none] at this
              simp [cellOcc, this.1]
            refine ⟨?_, ?_, rfl, rfl, ?_, ?_, ?_, ?_, ?_, rfl, rfl, rfl⟩
            · intro lane hmem
              exact hlen3 lane hmem
            · show lanes3.length = lanes_n
              rw [hLen3, hLen2, hLen1]
              unfold create_lanes_and_cells
              exact List.length_replicate ..
            · show lanesSum cellOcc lanes3 = ncars
              omega
            · exact lanesAllB_mono _ _ _ (finOK_blocked p) hfin3
            · show lanesSum Cell.cars_passed lanes3 = 0
              exact lanesSum_eq_zero _ _
                (fun lane hlane cell hcell => finOK_passed p cell (hfin3 lane hlane cell hcell))
            · show lanesSum cellDist lanes3 = 0
              exact lanesSum_eq_zero _ _
                (fun lane hlane cell hcell => finOK_dist p cell (hfin3 lane hlane cell hcell))
            · exact lanesAllB_mono _ _ _ (finOK_cars p) hfin3
          · exact absurd hac (by simp)
  · exact absurd h (by simp)

end Construction

section GenericSweep

/-- Any road predicate preserved by every in-bounds processCell step is
preserved by the whole sweep. -/
theorem sweepGo_pres (P : Road → Prop)
    (hstep : ∀ r l c r', l < r.lanes.length → c < r.length → P r →
      r.processCell l c = some r' → P r') :
    ∀ (ps : List (Nat × Nat)) (r r' : Road),
    (∀ q ∈ ps, q.1 < r.lanes.length ∧ q.2 < r.length) →
    P r → sweepGo r ps = some r' → P r' := by
  intro ps
  induction ps with
  | nil =>
    intro r r' _ hP h
    obtain rfl := Option.some_injective _ h
    exact hP
  | cons q ps ih =>
    intro r r' hbounds hP h
    rw [sweepGo] at h
    cases hpc : r.processCell q.1 q.2 with
    | none => rw [hpc] at h; exact absurd h (by simp)
    | some rMid =>
      rw [hpc] at h
      obtain ⟨hb1, hb2⟩ := hbounds q (List.mem_cons_self ..)
      have hfr := framePres_processCell r q.1 q.2 rMid hpc
      refine ih rMid r' ?_ (hstep r q.1 q.2 rMid hb1 hb2 hP hpc) h
      intro w hw
      obtain ⟨hw1, hw2⟩ := hbounds w (List.mem_cons_of_mem _ hw)
      exact ⟨by rw [hfr.2.2.2.2.2.2.2.2]; exact hw1, by rw [hfr.2.1]; exact hw2⟩

end GenericSweep

section C5Bundle

/-- The speed invariant of a car: speed within the blueprint bound, and the
u8 range of the bound itself. -/
def speedOK (k : Car) : Bool := decide (k.speed ≤ k.max_speed) && decide (k.max_speed ≤ 255)

theorem speedOK_increase (k : Car) (h : speedOK k = true) :
    speedOK k.increase_speed = true := by
  unfold speedOK at h ⊢
  simp only [Bool.and_eq_true, decide_eq_true_eq] at h ⊢
  unfold Car.increase_speed
  simp only
  split
  · exact h
  · split
    · exact h
    · rename_i hne
      refine ⟨?_, h.2⟩
      simp only
      have hlt : k.speed < k.max_speed := Nat.lt_of_le_of_ne h.1 hne
      have : (k.speed + 1) % 256 = k.speed + 1 := Nat.mod_eq_of_lt (by omega)
      omega

theorem speedOK_decrease (k : Car) (h : speedOK k = true) :
    speedOK k.decrease_speed = true := by
  unfold speedOK at h ⊢
  simp only [Bool.and_eq_true, decide_eq_true_eq] at h ⊢
  unfold Car.decrease_speed
  simp only
  split
  · exact h
  · exact ⟨by simp only; omega, h.2⟩

theorem speedOK_decrease_to (k : Car) (t : Nat) (h : speedOK k = true) :
    speedOK (k.decrease_speed_to t) = true := by
  unfold speedOK at h ⊢
  simp only [Bool.and_eq_true, decide_eq_true_eq] at h ⊢
  unfold Car.decrease_speed_to
  split
  · exact h
  · rename_i hge
    exact ⟨by simp only; omega, h.2⟩

theorem speedOK_record (k : Car) (h : speedOK k = true) : speedOK k.record = true := by
  unfold speedOK at h ⊢
  simp only [Bool.and_eq_true, decide_eq_true_eq] at h ⊢
  unfold Car.record
  simp only
  split
  · exact h
  · split
    · exact h
    · exact h

theorem speedOK_finish (k : Car) (t : Nat) (dd : Bool) (h : speedOK k = true) :
    speedOK (k.finish t dd) = true := by
  unfold Car.finish
  simp only
  refine speedOK_record _ ?_
  split
  · exact speedOK_decrease _ (speedOK_decrease_to _ _ h)
  · exact speedOK_decrease_to _ _ h

theorem speedOK_unsync (k : Car) (o : FlipFlop) (h : speedOK k = true) :
    speedOK (k.flip_flop_unsync o).1 = true := h

/-- gridAllB of a car predicate survives a fresh step provided the predicate
is closed under the car operations and holds for the moved car. -/
theorem carsAll_stepFresh (p : Car → Bool)
    (hinc : ∀ k, p k = true → p k.increase_speed = true)
    (hfin : ∀ k t dd, p k = true → p (k.finish t dd) = true)
    (r1 : Road) (l c : Nat) (car1 : Car) (lc rc : Bool) (r' : Road)
    (h : r1.stepFresh l c car1 lc rc = some r')
    (hgrid : gridAllB (cellCarsAll p) r1) (hp1 : p car1 = true) :
    gridAllB (cellCarsAll p) r' := by
  obtain ⟨stay, dd, g1, g2, best, hbest, H⟩ := stepFresh_master r1 l c car1 lc rc r' h
  simp only at H
  obtain ⟨hb, hcar, heq⟩ := H
  have hpass : ∀ cell, cellCarsAll p cell = true → cellCarsAll p cell.pass = true :=
    fun cell hc => hc
  have hnew : cellCarsAll p Cell.new = true := rfl
  set car3 := (car1.increase_speed).finish best.driveable dd with hcar3
  set tli := ((l : Int) + best.to_offset).toNat with htli_def
  set r4 := Road.note_car_obstacle { r1 with rng := g2 } l 0 with hr4
  set r5 := if best.is_switch && decide (1 < car3.speed) then
      r4.passAt l ((c + 1) % r1.length) else r4 with hr5
  set r6 := if best.is_switch && decide (0 < car3.speed) then
      r5.note_car_obstacle tli (car3.speed - 1) else r5 with hr6
  set r7 := passCells r6 tli (c + 1) car3.speed r1.length with hr7
  have hg4 : gridAllB (cellCarsAll p) r4 := gridAllB_congr_lanes _ r1 _ rfl hgrid
  have hg5 : gridAllB (cellCarsAll p) r5 := by
    rw [hr5]
    exact ite_road_prop _ _ _ _ (gridAllB_passAt _ _ _ _ hg4 hpass hnew) hg4
  have hg6 : gridAllB (cellCarsAll p) r6 := by
    rw [hr6]
    exact ite_road_prop _ _ _ _ (gridAllB_congr_lanes _ r5 _ rfl hg5) hg5
  have hg7 : gridAllB (cellCarsAll p) r7 :=
    gridAllB_passCells (cellCarsAll p) hpass hnew _ _ _ _ _ hg6
  rw [heq]
  refine gridAllB_setCellAt _ _ _ _ _ hg7 ?_
  show ((some car3).all p) = true
  simp only [Option.all_some]
  exact hfin _ _ _ (hinc _ hp1)

/-- gridAllB of a car predicate survives one whole processCell step. -/
theorem carsAll_processCell (p : Car → Bool)
    (hinc : ∀ k, p k = true → p k.increase_speed = true)
    (hfin : ∀ k t dd, p k = true → p (k.finish t dd) = true)
    (hflip : ∀ k o, p k = true → p (k.flip_flop_unsync o).1 = true)
    (r : Road) (l c : Nat) (r' : Road) (h : r.processCell l c = some r')
    (hgrid : gridAllB (cellCarsAll p) r) : gridAllB (cellCarsAll p) r' := by
  unfold processCell at h
  simp only at h
  split at h
  · obtain rfl := Option.some_injective _ h
    exact gridAllB_congr_lanes _ _ _ (note_car_free_lanes ..) hgrid
  · split at h
    · obtain rfl := Option.some_injective _ h
      exact gridAllB_congr_lanes _ _ _ (note_car_free_lanes ..) hgrid
    · rename_i car0 hcar0
      have hp0 : p car0 = true := by
        have := gridAllB_cellAt (cellCarsAll p) r l c hgrid rfl
        unfold cellCarsAll at this
        rw [hcar0] at this
        simpa using this
      have hg1 : gridAllB (cellCarsAll p)
          (r.setCellAt l c { r.cellAt l c with car := none }) := by
        refine gridAllB_setCellAt _ _ _ _ _ hgrid rfl
      split at h
      · exact carsAll_stepFresh p hinc hfin _ l c _ _ _ _ h hg1 (hflip _ _ hp0)
      · unfold stepStale at h
        obtain ⟨hbf, hcf, heq⟩ := putCarAt_eq_some _ _ _ _ _ h
        rw [heq]
        refine gridAllB_setCellAt _ _ _ _ _ (gridAllB_congr_lanes _ _ _ rfl hg1) ?_
        show ((some (car0.flip_flop_unsync _).1).all p) = true
        simp only [Option.all_some]
        exact hflip _ _ hp0

/-- gridAllB of a car predicate survives a whole round. -/
theorem carsAll_round (p : Car → Bool)
    (hinc : ∀ k, p k = true → p k.increase_speed = true)
    (hfin : ∀ k t dd, p k = true → p (k.finish t dd) = true)
    (hflip : ∀ k o, p k = true → p (k.flip_flop_unsync o).1 = true)
    (r r' : Road) (h : r.round = some r') (hgrid : gridAllB (cellCarsAll p) r) :
    gridAllB (cellCarsAll p) r' := by
  unfold round at h
  simp only at h
  cases hsw : sweepGo r.roundPrep
      (sweepPositions r.roundPrep.length r.roundPrep.lanes.length) with
  | none => rw [hsw] at h; exact absurd h (by simp)
  | some r1 =>
    rw [hsw] at h
    obtain rfl := Option.some_injective _ h
    have hgp : gridAllB (cellCarsAll p) r.roundPrep :=
      gridAllB_congr_lanes _ r _ (roundPrep_lanes r) hgrid
    have hg1 := sweepGo_pres (gridAllB (cellCarsAll p))
      (fun rr ll cc rr' hb1 hb2 hP hpc => carsAll_processCell p hinc hfin hflip rr ll cc rr' hpc hP)
      _ _ _ (fun q hq => sweepPositions_bounds _ _ q hq) hgp hsw
    exact gridAllB_congr_lanes _ r1 _ rfl hg1

theorem carsAll_iterate (p : Car → Bool)
    (hinc : ∀ k, p k = true → p k.increase_speed = true)
    (hfin : ∀ k t dd, p k = true → p (k.finish t dd) = true)
    (hflip : ∀ k o, p k = true → p (k.flip_flop_unsync o).1 = true) :
    ∀ (n : Nat) (r r' : Road), iterateRounds n r = some r' →
    gridAllB (cellCarsAll p) r → gridAllB (cellCarsAll p) r' := by
  intro n
  induction n with
  | zero =>
    intro r r' h hg
    obtain rfl := Option.some_injective _ h
    exact hg
  | succ m ih =>
    intro r r' h hg
    rw [iterateRounds] at h
    cases hr : r.round with
    | none => rw [hr] at h; exact absurd h (by simp)
    | some rMid =>
      rw [hr] at h
      exact ih rMid r' h (carsAll_round p hinc hfin hflip r rMid hr hg)

end C5Bundle

section C4Bundle

theorem decrease_speed_to_distance (k : Car) (t : Nat) :
    (k.decrease_speed_to t).distance = k.distance := by
  unfold Car.decrease_speed_to; split <;> rfl

theorem decrease_speed_distance (k : Car) : k.decrease_speed.distance = k.distance := by
  unfold Car.decrease_speed; simp only; split <;> rfl

theorem increase_speed_distance (k : Car) : k.increase_speed.distance = k.distance := by
  unfold Car.increase_speed; simp only; split
  · rfl
  · split <;> rfl

theorem record_speed (k : Car) : k.record.speed = k.speed := by
  unfold Car.record; simp only; split
  · rfl
  · split <;> rfl

theorem record_distance (k : Car) : k.record.distance = k.distance + k.speed := by
  unfold Car.record; simp only; split
  · rfl
  · split <;> rfl

/-- finish commits exactly its final speed to the distance counter. -/
theorem finish_distance (k : Car) (t : Nat) (dd : Bool) :
    (k.finish t dd).distance = k.distance + (k.finish t dd).speed := by
  unfold Car.finish
  simp only
  split
  · rw [record_distance, record_speed, decrease_speed_distance, decrease_speed_to_distance]
  · rw [record_distance, record_speed, decrease_speed_to_distance]

theorem unsync_distance (k : Car) (o : FlipFlop) :
    (k.flip_flop_unsync o).1.distance = k.distance := rfl

theorem check_sides_one_lane (r : Road) (c : Nat) (h1 : r.lanes.length = 1) :
    r.check_sides_clear 0 c = (false, false) := by
  unfold check_sides_clear
  simp [h1]

/-- In a single-lane road a fresh step adds the car's final speed to both the
passage total and the distance total (stated as one balance equation). -/
theorem c4_stepFresh_sum (r1 : Road) (c : Nat) (car1 : Car) (r' : Road)
    (h : r1.stepFresh 0 c car1 false false = some r')
    (hWF : WF r1) (h1 : r1.lanes.length = 1) (hc : c < r1.length) :
    sumPassed r' + sumDistance r1 + car1.distance = sumDistance r' + sumPassed r1 := by
  obtain ⟨stay, dd, g1, g2, best, hbest, H⟩ := stepFresh_master r1 0 c car1 false false r' h
  obtain ⟨s0, hstay⟩ := determine_best_lane_stay { r1 with rng := g1 } 0
    (car1.increase_speed).speed false false stay rfl rfl
  rw [hstay] at hbest
  subst hbest
  simp only [LaneSwitch.is_switch, LaneSwitch.to_offset, Bool.false_and,
    Bool.false_eq_true, if_false] at H
  have htli0 : (((0 : Nat) : Int) + 0).toNat = 0 := rfl
  rw [htli0] at H
  obtain ⟨hb, hcar, heq⟩ := H
  set car3 := (car1.increase_speed).finish (LaneSwitch.Stay s0).driveable dd with hcar3
  set r4 := Road.note_car_obstacle { r1 with rng := g2 } 0 0 with hr4
  set r7 := passCells r4 0 (c + 1) car3.speed r1.length with hr7
  have h0 : 0 < r1.length := by omega
  have hWF4 : WF r4 := WF_congr r1 r4 rfl rfl hWF
  have hWF7 : WF r7 := WF_passCells _ _ _ _ _ hWF4
  have hll7 : r7.lanes.length = r1.lanes.length := by
    rw [hr7, passCells_lanes_length]; rfl
  have htli7 : 0 < r7.lanes.length := by omega
  have htc7 : (c + car3.speed) % r1.length < (r7.lanes.getD 0 []).length := by
    have e1 : (r7.lanes.getD 0 []).length = r7.length := hWF7 _ (getD_mem _ _ _ htli7)
    have e2 : r7.length = r1.length := by
      rw [hr7, hr4]
      simp
    rw [e1, e2]
    exact Nat.mod_lt _ h0
  have hr4len : r4.lanes.length = 1 := by
    rw [hr4]
    simpa using h1
  have hr4length : r4.length = r1.length := by
    rw [hr4]
    simp
  -- passage accounting
  have hpass4 : gridSum Cell.cars_passed r4 = gridSum Cell.cars_passed r1 := by
    rw [hr4]
    exact gridSum_congr_lanes _ _ _ rfl
  have hp7 : gridSum Cell.cars_passed r7 = gridSum Cell.cars_passed r1 + car3.speed := by
    rw [hr7]
    have hstep := sumPassed_passCells 0 r1.length car3.speed (c + 1) r4 hWF4
      (by omega) hr4length.symm h0
    unfold sumPassed at hstep
    rw [hstep, hpass4]
  have hpput := gridSum_setCellAt Cell.cars_passed r7 0 ((c + car3.speed) % r1.length)
    { r7.cellAt 0 ((c + car3.speed) % r1.length) with car := some car3 } htli7 htc7
  -- distance accounting
  have hdist4 : gridSum cellDist r4 = gridSum cellDist r1 := by
    rw [hr4]
    exact gridSum_congr_lanes _ _ _ rfl
  have hd7 : gridSum cellDist r7 = gridSum cellDist r1 := by
    rw [hr7]
    rw [gridSum_passCells_inv cellDist (fun cell => rfl) _ _ _ _ _]
    exact hdist4
  have hdput := gridSum_setCellAt cellDist r7 0 ((c + car3.speed) % r1.length)
    { r7.cellAt 0 ((c + car3.speed) % r1.length) with car := some car3 } htli7 htc7
  have hd0 : cellDist (r7.cellAt 0 ((c + car3.speed) % r1.length)) = 0 := by
    unfold cellDist
    rw [hcar]
    rfl
  have hd1 : cellDist { r7.cellAt 0 ((c + car3.speed) % r1.length) with car := some car3 } =
      car3.distance := rfl
  have hfd : car3.distance = car1.distance + car3.speed := by
    rw [hcar3, finish_distance, increase_speed_distance]
  rw [heq]
  show gridSum Cell.cars_passed _ + gridSum cellDist r1 + car1.distance =
    gridSum cellDist _ + gridSum Cell.cars_passed r1
  simp only at hpput hdput hd0 hd1 ⊢
  omega

/-- In a single-lane road one processCell step preserves the flow balance. -/
theorem c4_processCell (r : Road) (l c : Nat) (r' : Road)
    (h : r.processCell l c = some r')
    (hWF : WF r) (h1 : r.lanes.length = 1) (hl : l < r.lanes.length) (hc : c < r.length)
    (hsum : sumPassed r = sumDistance r) : sumPassed r' = sumDistance r' := by
  have hl0 : l = 0 := by omega
  subst hl0
  unfold processCell at h
  simp only at h
  split at h
  · obtain rfl := Option.some_injective _ h
    show gridSum Cell.cars_passed _ = gridSum cellDist _
    rw [gridSum_congr_lanes _ _ _ (note_car_free_lanes ..),
      gridSum_congr_lanes _ _ _ (note_car_free_lanes ..)]
    exact hsum
  · split at h
    · obtain rfl := Option.some_injective _ h
      show gridSum Cell.cars_passed _ = gridSum cellDist _
      rw [gridSum_congr_lanes _ _ _ (note_car_free_lanes ..),
        gridSum_congr_lanes _ _ _ (note_car_free_lanes ..)]
      exact hsum
    · rename_i car0 hcar0
      have hc' : c < (r.lanes.getD 0 []).length := by
        rw [hWF _ (getD_mem _ _ _ hl)]; exact hc
      have htake := gridSum_setCellAt cellDist r 0 c
        { r.cellAt 0 c with car := none } hl hc'
      have htakep := gridSum_setCellAt Cell.cars_passed r 0 c
        { r.cellAt 0 c with car := none } hl hc'
      have hdc0 : cellDist (r.cellAt 0 c) = car0.distance := by
        unfold cellDist; rw [hcar0]; rfl
      have hdc1 : cellDist { r.cellAt 0 c with car := none } = 0 := rfl
      have hWF1 : WF (r.setCellAt 0 c { r.cellAt 0 c with car := none }) :=
        WF_setCellAt _ _ _ _ hWF
      have h11 : (r.setCellAt 0 c { r.cellAt 0 c with car := none }).lanes.length = 1 := by
        rw [setCellAt_lanes_length]; exact h1
      rw [check_sides_one_lane r c h1] at h
      split at h
      · have hbal := c4_stepFresh_sum _ c _ _ h hWF1 h11 hc
        rw [unsync_distance] at hbal
        unfold sumPassed sumDistance at hbal hsum ⊢
        simp only at htake htakep hbal hdc0 hdc1 ⊢
        omega
      · unfold stepStale at h
        obtain ⟨hbf, hcf, heq⟩ := putCarAt_eq_some _ _ _ _ _ h
        have hn1 : 0 < ((r.setCellAt 0 c { r.cellAt 0 c with car := none }).note_car_obstacle 0 0).lanes.length := by
          simp only [note_car_obstacle_lanes, setCellAt_lanes_length]
          omega
        have hn2 : c < (((r.setCellAt 0 c { r.cellAt 0 c with car := none }).note_car_obstacle 0 0).lanes.getD 0 []).length := by
          rw [WF_note_car_obstacle _ _ _ hWF1 _ (getD_mem _ _ _ hn1)]
          exact hc
        have hput := gridSum_setCellAt cellDist _ 0 c
          { ((r.setCellAt 0 c { r.cellAt 0 c with car := none }).note_car_obstacle 0 0).cellAt 0 c with
            car := some (car0.flip_flop_unsync r.overflow_flip_flop).1 } hn1 hn2
        have hputp := gridSum_setCellAt Cell.cars_passed _ 0 c
          { ((r.setCellAt 0 c { r.cellAt 0 c with car := none }).note_car_obstacle 0 0).cellAt 0 c with
            car := some (car0.flip_flop_unsync r.overflow_flip_flop).1 } hn1 hn2
        have hz : cellDist (((r.setCellAt 0 c { r.cellAt 0 c with car := none }).note_car_obstacle 0 0).cellAt 0 c) = 0 := by
          unfold cellDist; rw [hcf]; rfl
        have hznew : cellDist
            { ((r.setCellAt 0 c { r.cellAt 0 c with car := none }).note_car_obstacle 0 0).cellAt 0 c with
              car := some (car0.flip_flop_unsync r.overflow_flip_flop).1 } = car0.distance := rfl
        have hnp : gridSum Cell.cars_passed
            ((r.setCellAt 0 c { r.cellAt 0 c with car := none }).note_car_obstacle 0 0) =
            gridSum Cell.cars_passed (r.setCellAt 0 c { r.cellAt 0 c with car := none }) := rfl
        have hnd : gridSum cellDist
            ((r.setCellAt 0 c { r.cellAt 0 c with car := none }).note_car_obstacle 0 0) =
            gridSum cellDist (r.setCellAt 0 c { r.cellAt 0 c with car := none }) := rfl
        rw [heq]
        unfold sumPassed sumDistance at hsum ⊢
        simp only [setCellAt_flop] at htake htakep hput hputp hz hznew hnp hnd hdc0 hdc1 ⊢
        omega

/-- The full C4 invariant for a single-lane road. -/
def c4Inv (r : Road) : Prop :=
  WF r ∧ gridAllB cellBlockedOK r ∧ r.lanes.length = 1 ∧ sumPassed r = sumDistance r

theorem c4Inv_processCell (r : Road) (l c : Nat) (r' : Road)
    (hl : l < r.lanes.length) (hc : c < r.length)
    (hinv : c4Inv r) (h : r.processCell l c = some r') : c4Inv r' := by
  obtain ⟨hWF, hbl, h1, hsum⟩ := hinv
  obtain ⟨_, hWF', hbl'⟩ := c1_processCell r l c r' h hWF hl hc hbl
  have hfr := framePres_processCell r l c r' h
  exact ⟨hWF', hbl', by rw [hfr.2.2.2.2.2.2.2.2]; exact h1,
    c4_processCell r l c r' h hWF h1 hl hc hsum⟩

theorem c4Inv_round (r r' : Road) (h : r.round = some r') (hinv : c4Inv r) :
    c4Inv r' := by
  unfold round at h
  simp only at h
  cases hsw : sweepGo r.roundPrep
      (sweepPositions r.roundPrep.length r.roundPrep.lanes.length) with
  | none => rw [hsw] at h; exact absurd h (by simp)
  | some r1 =>
    rw [hsw] at h
    obtain rfl := Option.some_injective _ h
    obtain ⟨hWF, hbl, h1, hsum⟩ := hinv
    have hinvp : c4Inv r.roundPrep := by
      refine ⟨WF_congr r _ (roundPrep_lanes r) (roundPrep_length r) hWF,
        gridAllB_congr_lanes _ r _ (roundPrep_lanes r) hbl,
        by rw [roundPrep_lanes]; exact h1, ?_⟩
      show gridSum Cell.cars_passed _ = gridSum cellDist _
      rw [gridSum_congr_lanes _ _ _ (roundPrep_lanes r),
        gridSum_congr_lanes _ _ _ (roundPrep_lanes r)]
      exact hsum
    have h1' := sweepGo_pres c4Inv
      (fun rr ll cc rr' hb1 hb2 hP hpc => c4Inv_processCell rr ll cc rr' hb1 hb2 hP hpc)
      _ _ _ (fun q hq => sweepPositions_bounds _ _ q hq) hinvp hsw
    obtain ⟨hWF1, hbl1, h11, hsum1⟩ := h1'
    refine ⟨WF_congr r1 _ rfl rfl hWF1, gridAllB_congr_lanes _ r1 _ rfl hbl1, h11, ?_⟩
    show gridSum Cell.cars_passed _ = gridSum cellDist _
    rw [gridSum_congr_lanes _ _ _ (rfl : ({ r1 with
        overflow_flip_flop := r1.overflow_flip_flop.flip_flop } : Road).lanes = r1.lanes),
      gridSum_congr_lanes _ _ _ (rfl : ({ r1 with
        overflow_flip_flop := r1.overflow_flip_flop.flip_flop } : Road).lanes = r1.lanes)]
    exact hsum1

/-- The C4 flow-balance invariant is preserved by any number of rounds on a
single-lane road. -/
theorem c4Inv_iterate : ∀ (n : Nat) (r r' : Road), iterateRounds n r = some r' →
    c4Inv r → c4Inv r' := by
  intro n
  induction n with
  | zero =>
    intro r r' h hg
    obtain rfl := Option.some_injective _ h
    exact hg
  | succ m ih =>
    intro r r' h hg
    rw [iterateRounds] at h
    cases hr : r.round with
    | none => rw [hr] at h; exact absurd h (by simp)
    | some rMid =>
      rw [hr] at h
      exact ih rMid r' h (c4Inv_round r rMid hr hg)

end C4Bundle

section C2Bundle

/-- The static part of a cell: occupant, blocked flag, traffic-light flag
(everything except the cars_passed statistic). -/
def cellCore (cell : Cell) : Option Car × Bool × Bool :=
  (cell.car, cell.blocked, cell.traffic_light)

/-- During the sweep: every car still carrying the pre-round parity b sits at a
position not yet processed, on a cell the sweep will not skip. -/
def freshOK (b : Bool) (ps : List (Nat × Nat)) (r : Road) : Prop :=
  ∀ l c k, (r.cellAt l c).car = some k → k.overflow_flip_flop.state = b →
    (l, c) ∈ ps ∧ (r.cellAt l c).blocked = false ∧
      ((r.cellAt l c).traffic_light && r.traffic_lights_red) = false

theorem increase_speed_flop (k : Car) :
    k.increase_speed.overflow_flip_flop = k.overflow_flip_flop := by
  unfold Car.increase_speed; simp only; split
  · rfl
  · split <;> rfl

theorem decrease_speed_to_flop (k : Car) (t : Nat) :
    (k.decrease_speed_to t).overflow_flip_flop = k.overflow_flip_flop := by
  unfold Car.decrease_speed_to; split <;> rfl

theorem decrease_speed_flop (k : Car) :
    k.decrease_speed.overflow_flip_flop = k.overflow_flip_flop := by
  unfold Car.decrease_speed; simp only; split <;> rfl

theorem record_flop (k : Car) : k.record.overflow_flip_flop = k.overflow_flip_flop := by
  unfold Car.record; simp only; split
  · rfl
  · split <;> rfl

theorem finish_flop (k : Car) (t : Nat) (dd : Bool) :
    (k.finish t dd).overflow_flip_flop = k.overflow_flip_flop := by
  unfold Car.finish; simp only; split
  · rw [record_flop, decrease_speed_flop, decrease_speed_to_flop]
  · rw [record_flop, decrease_speed_to_flop]

theorem unsync_true (k : Car) (f : FlipFlop) (h : (k.flip_flop_unsync f).2 = true) :
    k.overflow_flip_flop.state = f.state ∧
      (k.flip_flop_unsync f).1.overflow_flip_flop.state = !f.state := by
  by_cases hc : f.state = k.overflow_flip_flop.state
  · refine ⟨hc.symm, ?_⟩
    simp [Car.flip_flop_unsync, FlipFlop.unsync, FlipFlop.flip_flop, hc]
  · simp [Car.flip_flop_unsync, FlipFlop.unsync, hc] at h

theorem unsync_false (k : Car) (f : FlipFlop) (h : (k.flip_flop_unsync f).2 = false) :
    (k.flip_flop_unsync f).1 = k ∧ k.overflow_flip_flop.state = !f.state := by
  by_cases hc : f.state = k.overflow_flip_flop.state
  · simp [Car.flip_flop_unsync, FlipFlop.unsync, hc] at h
  · refine ⟨?_, ?_⟩
    · simp [Car.flip_flop_unsync, FlipFlop.unsync, hc]
    · cases hk : k.overflow_flip_flop.state <;> cases hfs : f.state <;> simp_all

theorem cellAt_setCellAt_cases (r : Road) (a b : Nat) (cell : Cell) (l c : Nat) :
    (r.setCellAt a b cell).cellAt l c = r.cellAt l c ∨
      ((r.setCellAt a b cell).cellAt l c = cell ∧ a = l ∧ b = c) := by
  rcases eq_or_ne a l with rfl | hne
  · rcases eq_or_ne b c with rfl | hne2
    · rcases Nat.lt_or_ge a r.lanes.length with hl | hl
      · rcases Nat.lt_or_ge b (r.lanes.getD a []).length with hcb | hcb
        · exact Or.inr ⟨cellAt_setCellAt_self r a b cell hl hcb, rfl, rfl⟩
        · left
          rw [setCellAt_oob_cell r a b cell hcb]
          unfold cellAt
          simp only
          rw [getD_set_self _ _ _ _ hl]
      · left; rw [setCellAt_oob r a b cell hl]
    · exact Or.inl (cellAt_setCellAt_ne r a b a c cell (Or.inr hne2))
  · exact Or.inl (cellAt_setCellAt_ne r a b l c cell (Or.inl hne))

theorem cellCore_passAt (r : Road) (a b l c : Nat) :
    cellCore ((r.passAt a b).cellAt l c) = cellCore (r.cellAt l c) := by
  unfold passAt
  rcases cellAt_setCellAt_cases r a b ((r.cellAt a b).pass) l c with hcs | ⟨hcs, rfl, rfl⟩
  · rw [hcs]
  · rw [hcs]; rfl

theorem cellCore_passCells (a len : Nat) : ∀ (n s : Nat) (r : Road) (l c : Nat),
    cellCore ((passCells r a s n len).cellAt l c) = cellCore (r.cellAt l c) := by
  intro n
  induction n with
  | zero => intro s r l c; rfl
  | succ m ih =>
    intro s r l c
    show cellCore ((passCells (r.passAt a (s % len)) a (s + 1) m len).cellAt l c) =
      cellCore (r.cellAt l c)
    rw [ih]
    exact cellCore_passAt r a (s % len) l c

theorem cellAt_congr (r r' : Road) (h : r'.lanes = r.lanes) (l c : Nat) :
    r'.cellAt l c = r.cellAt l c := by
  unfold cellAt; rw [h]

/-- A fresh step changes cell cores only by depositing the stepped car (whose
flip flop it preserves) somewhere. -/
theorem cellCore_stepFresh (r1 : Road) (a c : Nat) (car1 : Car) (lc rc : Bool) (r' : Road)
    (h : r1.stepFresh a c car1 lc rc = some r') (L C : Nat) :
    cellCore (r'.cellAt L C) = cellCore (r1.cellAt L C) ∨
      ∃ k, (r'.cellAt L C).car = some k ∧
        k.overflow_flip_flop = car1.overflow_flip_flop := by
  obtain ⟨stay, dd, g1, g2, best, hbest, H⟩ := stepFresh_master r1 a c car1 lc rc r' h
  simp only at H
  obtain ⟨hb, hcar, heq⟩ := H
  set car3 := (car1.increase_speed).finish best.driveable dd with hcar3
  set tli := ((a : Int) + best.to_offset).toNat with htli
  set tc := (c + car3.speed) % r1.length with htc
  set r4 := Road.note_car_obstacle { r1 with rng := g2 } a 0 with hr4
  set r5 := if best.is_switch && decide (1 < car3.speed) then
      r4.passAt a ((c + 1) % r1.length) else r4 with hr5
  set r6 := if best.is_switch && decide (0 < car3.speed) then
      r5.note_car_obstacle tli (car3.speed - 1) else r5 with hr6
  set r7 := passCells r6 tli (c + 1) car3.speed r1.length with hr7
  have hflop3 : car3.overflow_flip_flop = car1.overflow_flip_flop := by
    rw [hcar3, finish_flop, increase_speed_flop]
  have h76 : cellCore (r7.cellAt L C) = cellCore (r6.cellAt L C) := by
    rw [hr7]; exact cellCore_passCells tli r1.length car3.speed (c + 1) r6 L C
  have h65 : cellCore (r6.cellAt L C) = cellCore (r5.cellAt L C) := by
    rw [hr6]; split <;> rfl
  have h54 : cellCore (r5.cellAt L C) = cellCore (r4.cellAt L C) := by
    rw [hr5]; split
    · exact cellCore_passAt r4 a ((c + 1) % r1.length) L C
    · rfl
  have h41 : cellCore (r4.cellAt L C) = cellCore (r1.cellAt L C) := by
    rw [hr4]; rfl
  have h71 : cellCore (r7.cellAt L C) = cellCore (r1.cellAt L C) :=
    (h76.trans h65).trans (h54.trans h41)
  rcases cellAt_setCellAt_cases r7 tli tc
      { r7.cellAt tli tc with car := some car3 } L C with hcs | ⟨hcs, _, _⟩
  · left; rw [heq, hcs]; exact h71
  · right
    refine ⟨car3, ?_, hflop3⟩
    rw [heq, hcs]

/-- A stale step changes cell cores only by putting the (unchanged) car back. -/
theorem cellCore_stepStale (r1 : Road) (a c : Nat) (car1 : Car) (r' : Road)
    (h : r1.stepStale a c car1 = some r') (L C : Nat) :
    cellCore (r'.cellAt L C) = cellCore (r1.cellAt L C) ∨
      ∃ k, (r'.cellAt L C).car = some k ∧
        k.overflow_flip_flop = car1.overflow_flip_flop := by
  unfold stepStale at h
  obtain ⟨hbf, hcf, heq⟩ := putCarAt_eq_some _ _ _ _ _ h
  rcases cellAt_setCellAt_cases (r1.note_car_obstacle a 0) a c
      { (r1.note_car_obstacle a 0).cellAt a c with car := some car1 } L C with
    hcs | ⟨hcs, _, _⟩
  · left; rw [heq, hcs]; rfl
  · right
    refine ⟨car1, ?_, rfl⟩
    rw [heq, hcs]

theorem carAt_bounds (r : Road) (l c : Nat) (k : Car) (h : (r.cellAt l c).car = some k) :
    l < r.lanes.length ∧ c < (r.lanes.getD l []).length := by
  constructor
  · by_contra hl
    push_neg at hl
    unfold cellAt at h
    rw [getD_of_length_le _ _ _ hl, getD_of_length_le _ _ _ (Nat.zero_le c)] at h
    simp [Cell.new] at h
  · by_contra hc
    push_neg at hc
    unfold cellAt at h
    rw [getD_of_length_le _ _ _ hc] at h
    simp [Cell.new] at h

/-- One processCell step maintains the fresh-car bookkeeping of the sweep. -/
theorem c2_processCell (b : Bool) (a d : Nat) (ps : List (Nat × Nat)) (r r' : Road)
    (hb : r.overflow_flip_flop.state = b)
    (hf : freshOK b ((a, d) :: ps) r)
    (h : r.processCell a d = some r') : freshOK b ps r' := by
  unfold processCell at h
  simp only at h
  split at h
  · rename_i hskip
    obtain rfl := Option.some_injective _ h
    intro L C k hcar hflag
    rw [cellAt_congr r _ (note_car_free_lanes ..) L C] at hcar ⊢
    rw [note_car_free_red]
    obtain ⟨hmem, hbl, htl⟩ := hf L C k hcar hflag
    refine ⟨?_, hbl, htl⟩
    rcases List.mem_cons.mp hmem with hqe | hin
    · exfalso
      injection hqe with h1 h2
      subst h1; subst h2
      unfold Cell.is_red_light at hskip
      rw [hbl] at hskip
      simp only [Bool.false_or] at hskip
      rw [htl] at hskip
      exact Bool.false_ne_true hskip
    · exact hin
  · cases hcar0 : (r.cellAt a d).car with
    | none =>
      rw [hcar0] at h
      simp only at h
      obtain rfl := Option.some_injective _ h
      intro L C k hcar hflag
      rw [cellAt_congr r _ (note_car_free_lanes ..) L C] at hcar ⊢
      rw [note_car_free_red]
      obtain ⟨hmem, hbl, htl⟩ := hf L C k hcar hflag
      refine ⟨?_, hbl, htl⟩
      rcases List.mem_cons.mp hmem with hqe | hin
      · exfalso
        injection hqe with h1 h2
        subst h1; subst h2
        rw [hcar0] at hcar
        exact Option.noConfusion hcar
      · exact hin
    | some car0 =>
      rw [hcar0] at h
      simp only at h
      have hb1 : (r.setCellAt a d { r.cellAt a d with car := none }).overflow_flip_flop.state
          = b := hb
      have hbounds := carAt_bounds r a d car0 hcar0
      split at h
      · rename_i hfr
        obtain ⟨hfl0, hfl1⟩ := unsync_true car0 _ hfr
        have hfp := framePres_stepFresh _ _ _ _ _ _ _ h
        intro L C k hcar hflag
        rcases cellCore_stepFresh _ a d _ _ _ _ h L C with hcore | ⟨k2, hk2, hk2f⟩
        · unfold cellCore at hcore
          rw [Prod.mk.injEq, Prod.mk.injEq] at hcore
          obtain ⟨hcarE, hblE, htlE⟩ := hcore
          rcases eq_or_ne (L, C) (a, d) with hqe | hqne
          · exfalso
            injection hqe with h1 h2
            subst h1; subst h2
            rw [cellAt_setCellAt_self r L C _ hbounds.1 hbounds.2, hcar] at hcarE
            simp at hcarE
          · have hne' : a ≠ L ∨ d ≠ C := by
              by_contra hcon
              push_neg at hcon
              exact hqne (by rw [hcon.1, hcon.2])
            have hsame := cellAt_setCellAt_ne r a d L C { r.cellAt a d with car := none } hne'
            rw [hsame] at hcarE hblE htlE
            rw [hcarE] at hcar
            obtain ⟨hmem, hbl, htl⟩ := hf L C k hcar hflag
            rcases List.mem_cons.mp hmem with hqe2 | hin
            · exact absurd hqe2 hqne
            · refine ⟨hin, ?_, ?_⟩
              · rw [hblE]; exact hbl
              · rw [htlE, hfp.2.2.2.2.2.2.2.1, setCellAt_red]
                exact htl
        · exfalso
          have hkk : k = k2 := by
            have := hcar.symm.trans hk2
            injection this
          have hkflag : k.overflow_flip_flop.state = !b := by
            rw [hkk, hk2f, hfl1, hb1]
          rw [hflag] at hkflag
          exact absurd hkflag (by cases b <;> simp)
      · rename_i hst
        simp only [Bool.not_eq_true] at hst
        obtain ⟨hunch, hneq⟩ := unsync_false car0 _ hst
        have hfp := framePres_stepStale _ _ _ _ _ h
        intro L C k hcar hflag
        rcases cellCore_stepStale _ a d _ _ h L C with hcore | ⟨k2, hk2, hk2f⟩
        · unfold cellCore at hcore
          rw [Prod.mk.injEq, Prod.mk.injEq] at hcore
          obtain ⟨hcarE, hblE, htlE⟩ := hcore
          rcases eq_or_ne (L, C) (a, d) with hqe | hqne
          · exfalso
            injection hqe with h1 h2
            subst h1; subst h2
            rw [cellAt_setCellAt_self r L C _ hbounds.1 hbounds.2, hcar] at hcarE
            simp at hcarE
          · have hne' : a ≠ L ∨ d ≠ C := by
              by_contra hcon
              push_neg at hcon
              exact hqne (by rw [hcon.1, hcon.2])
            have hsame := cellAt_setCellAt_ne r a d L C { r.cellAt a d with car := none } hne'
            rw [hsame] at hcarE hblE htlE
            rw [hcarE] at hcar
            obtain ⟨hmem, hbl, htl⟩ := hf L C k hcar hflag
            rcases List.mem_cons.mp hmem with hqe2 | hin
            · exact absurd hqe2 hqne
            · refine ⟨hin, ?_, ?_⟩
              · rw [hblE]; exact hbl
              · rw [htlE, hfp.2.2.2.2.2.2.2.1, setCellAt_red]
                exact htl
        · exfalso
          have hkk : k = k2 := by
            have := hcar.symm.trans hk2
            injection this
          have hkflag : k.overflow_flip_flop.state = !b := by
            rw [hkk, hk2f, hunch]
            rw [hneq, hb1]
          rw [hflag] at hkflag
          exact absurd hkflag (by cases b <;> simp)

theorem c2_sweepGo (b : Bool) : ∀ (ps : List (Nat × Nat)) (r r' : Road),
    r.overflow_flip_flop.state = b → freshOK b ps r → sweepGo r ps = some r' →
    r'.overflow_flip_flop.state = b ∧ freshOK b [] r' := by
  intro ps
  induction ps with
  | nil =>
    intro r r' hb hf h
    obtain rfl := Option.some_injective _ h
    exact ⟨hb, hf⟩
  | cons q ps ih =>
    intro r r' hb hf h
    rw [sweepGo] at h
    cases hpc : r.processCell q.1 q.2 with
    | none => rw [hpc] at h; exact absurd h (by simp)
    | some rMid =>
      rw [hpc] at h
      have hfp := framePres_processCell r q.1 q.2 rMid hpc
      have hbMid : rMid.overflow_flip_flop.state = b := by rw [hfp.2.2.2.2.1]; exact hb
      have hfMid : freshOK b ps rMid := c2_processCell b q.1 q.2 ps r rMid hb hf hpc
      exact ih rMid r' hbMid hfMid h

theorem mem_sweepPositions (len n l c : Nat) :
    (l, c) ∈ sweepPositions len n ↔ l < n ∧ c < len := by
  unfold sweepPositions
  rw [List.mem_flatMap]
  constructor
  · rintro ⟨cc, hcc, hmem⟩
    rw [List.mem_map] at hmem
    obtain ⟨ll, hll, he⟩ := hmem
    rw [List.mem_reverse, List.mem_range] at hcc
    rw [List.mem_range] at hll
    injection he with e1 e2
    subst e1; subst e2
    exact ⟨hll, hcc⟩
  · rintro ⟨hl, hc⟩
    exact ⟨c, by rw [List.mem_reverse, List.mem_range]; exact hc,
      by rw [List.mem_map]; exact ⟨l, List.mem_range.mpr hl, rfl⟩⟩

/-- After one round, every car's parity flag equals the road's parity flag,
provided no car started the round parked on a blocked cell or on a
traffic-light cell that the round is about to turn red. -/
theorem c2_round (r r' : Road) (h : r.round = some r') (hWF : WF r)
    (hcells : ∀ p ∈ sweepPositions r.length r.lanes.length,
      (r.cellAt p.1 p.2).car.isSome = true →
      (r.cellAt p.1 p.2).blocked = false ∧
        ((r.cellAt p.1 p.2).traffic_light &&
          ((r.rounds + 1) % 100 != (r.rounds + 1) % 200)) = false) :
    ∀ l c k, (r'.cellAt l c).car = some k →
      k.overflow_flip_flop.state = r'.overflow_flip_flop.state := by
  obtain ⟨b, hbdef⟩ : ∃ b, r.overflow_flip_flop.state = b := ⟨_, rfl⟩
  unfold round at h
  simp only at h
  cases hsw : sweepGo r.roundPrep
      (sweepPositions r.roundPrep.length r.roundPrep.lanes.length) with
  | none => rw [hsw] at h; exact absurd h (by simp)
  | some r1 =>
    rw [hsw] at h
    obtain rfl := Option.some_injective _ h
    have hb0 : r.roundPrep.overflow_flip_flop.state = b := by
      rw [roundPrep_flop]; exact hbdef
    have hf0 : freshOK b
        (sweepPositions r.roundPrep.length r.roundPrep.lanes.length) r.roundPrep := by
      intro L C k hcar hflag
      rw [cellAt_congr r _ (roundPrep_lanes r) L C] at hcar ⊢
      have hbounds := carAt_bounds r L C k hcar
      have hCl : C < r.length := by
        rw [← hWF _ (getD_mem r.lanes L [] hbounds.1)]; exact hbounds.2
      have hcprops := hcells (L, C)
        ((mem_sweepPositions r.length r.lanes.length L C).mpr ⟨hbounds.1, hCl⟩)
        (by show (r.cellAt L C).car.isSome = true; rw [hcar]; rfl)
      refine ⟨?_, hcprops.1, ?_⟩
      · rw [mem_sweepPositions, roundPrep_length]
        refine ⟨?_, ?_⟩
        · rw [roundPrep_lanes]; exact hbounds.1
        · exact hCl
      · rw [roundPrep_red]
        exact hcprops.2
    have hchain := c2_sweepGo b _ _ _ hb0 hf0 hsw
    intro L C k hcar
    rw [cellAt_congr r1 { r1 with overflow_flip_flop := r1.overflow_flip_flop.flip_flop }
      rfl L C] at hcar
    have hnotb : ¬ (k.overflow_flip_flop.state = b) := by
      intro hkb
      obtain ⟨hmm, _, _⟩ := hchain.2 L C k hcar hkb
      exact absurd hmm (List.not_mem_nil _)
    have hflip : ({ r1 with overflow_flip_flop := r1.overflow_flip_flop.flip_flop } :
        Road).overflow_flip_flop.state = !b := by
      show r1.overflow_flip_flop.flip_flop.state = !b
      rw [show r1.overflow_flip_flop.flip_flop.state = !r1.overflow_flip_flop.state from rfl,
        hchain.1]
    rw [hflip]
    revert hnotb
    cases hk2 : k.overflow_flip_flop.state <;> cases hb2 : b <;> simp

end C2Bundle


end Road

example : (FlipFlop.new.unsync FlipFlop.new).2 = true := by decide
example : (Cell.new.put_car (Car.new ⟨5, 1, 1⟩)).2 = none := by decide

section Claims

namespace Road

/-- An oracle RNG whose first sample is 0 and whose later samples are 1/2:
the first Bernoulli trial of a spawn draw succeeds for any positive density,
and every later draw against a zero probability fails. -/
def rng0 : Rng := { sample := fun n => if n = 0 then 0 else mkRat 1 2, idx := 0 }

/-- A placeholder road, used only as the default of Option.getD extractions. -/
def dfltRoad : Road :=
  { rng := rng0, lanes := [], n_lanes := 0, length := 0, cells_to_next_cars := [],
    cells_to_next_obstacles := [], rounds := 0, n_cars := 0,
    overflow_flip_flop := FlipFlop.new, dilly_dally_probability := 0,
    stay_in_lane_probability := 0, traffic_lights_red := false }

/-- The first car found on the grid. -/
def theCar (r : Road) : Option Car :=
  r.lanes.findSome? fun lane => lane.findSome? fun cell => cell.car

/-- Scenario S1 of the spec: one lane of 10 cells, one car with max_speed 5
and acceleration_time 1, no dilly-dallying, no blockages, no lights. -/
def s1cfg : Option Road := Road.new 20 1 10 [⟨5, 1, mkRat 1 10⟩] 0 0 [] [] rng0

/-- The S1 road as constructed. -/
def s1r0 : Road := s1cfg.getD dfltRoad

/-- The S1 road after one round. -/
def s1r1 : Road := (s1r0.round).getD dfltRoad

/-- The S1 road after ten rounds. -/
def s1r10 : Road := (Road.iterateRounds 10 s1r0).getD dfltRoad

/-- The S1 car after one round (it sits on cell 1). -/
def s1k1 : Car := ((s1r1.cellAt 0 1).car).getD (Car.new ⟨0, 0, 0⟩)

/-- A single-cell road whose only cell is a traffic light and holds a car. -/
def tlcfg : Option Road := Road.new 20 1 1 [⟨5, 1, 1⟩] 0 0 [] [⟨0, 0⟩] rng0

/-- Two lanes of 8 cells with blockages shaped so that the single car changes
lanes diagonally at speed 2 during round 2. -/
def c4cfg : Option Road :=
  Road.new 20 2 8 [⟨5, 1, mkRat 1 10⟩] 0 0
    [⟨0, 0, 1⟩, ⟨0, 5, 8⟩, ⟨1, 3, 4⟩, ⟨1, 6, 8⟩] [] rng0

/-- A car travelling at speed 3 with a partly charged accumulator. -/
def c3car : Car :=
  { max_speed := 5, acceleration_time := 3, acceleration_time_accumulated := 2,
    last_speed := 3, speed := 3, distance := 0, accelerations := 0,
    deaccelerations := 0, overflow_flip_flop := FlipFlop.new }

/-- C1 (corrected): occupancy conservation.  For every road built by Road::new
and any number of rounds the number of occupied cells equals n_cars, the grid
dimensions stay well formed, and no car sits on a blocked cell.  The original
claim's red-light clause is refuted by C1_occupancy_counterexample. -/
theorem C1_occupancy (fuel lanes_n length n : Nat) (bps : List VehicleBlueprint)
    (dd st : ℚ) (blocks : List CellLocationRange) (tls : List CellLocation)
    (g : Rng) (r0 r' : Road)
    (hnew : Road.new fuel lanes_n length bps dd st blocks tls g = some r0)
    (hit : Road.iterateRounds n r0 = some r') :
    carCount r' = r'.n_cars ∧ WF r' ∧ gridAllB cellBlockedOK r' := by
  obtain ⟨hWF, -, -, -, hcc, hbl, -, -, -, -, -, -⟩ :=
    new_props _ _ _ _ _ _ _ _ _ _ hnew (fun _ => true) (fun _ _ => rfl)
  obtain ⟨hcnt, hWF1, hbl1, hnc⟩ := c1_iterate n r0 r' hit hWF hbl
  exact ⟨by rw [hcnt, hnc]; exact hcc, hWF1, hbl1⟩

/-- C1 witness: the invariant holds of scenario S1 after ten rounds. -/
theorem C1_occupancy_witness :
    carCount s1r10 = s1r10.n_cars ∧ WF s1r10 ∧ gridAllB cellBlockedOK s1r10 :=
  C1_occupancy 20 1 10 10 [⟨5, 1, mkRat 1 10⟩] 0 0 [] [] rng0 s1r0 s1r10
    rfl rfl

/-- C1 counterexample: after 100 rounds of the traffic-light road the lights
are red, cell (0,0) is a traffic-light cell, and a car sits on it. -/
theorem C1_occupancy_counterexample :
    (tlcfg.bind (Road.iterateRounds 100)).map (fun r =>
      (r.traffic_lights_red, (r.cellAt 0 0).traffic_light,
        (r.cellAt 0 0).car.isSome)) = some (true, true, true) := rfl

/-- C2 (corrected): after round() every car's parity flag EQUALS the road's
parity flag (the original claim says it differs), provided no car began the
round parked on a blocked cell or on a traffic-light cell about to turn red. -/
theorem C2_parity (r r' : Road) (h : r.round = some r') (hWF : WF r)
    (hcells : ∀ p ∈ sweepPositions r.length r.lanes.length,
      (r.cellAt p.1 p.2).car.isSome = true →
      (r.cellAt p.1 p.2).blocked = false ∧
        ((r.cellAt p.1 p.2).traffic_light &&
          ((r.rounds + 1) % 100 != (r.rounds + 1) % 200)) = false)
    (l c : Nat) (k : Car) (hcar : (r'.cellAt l c).car = some k) :
    k.overflow_flip_flop.state = r'.overflow_flip_flop.state :=
  c2_round r r' h hWF hcells l c k hcar

/-- C2 witness: the S1 car after one round carries the road's parity. -/
theorem C2_parity_witness :
    s1k1.overflow_flip_flop.state = s1r1.overflow_flip_flop.state :=
  C2_parity s1r0 s1r1 rfl (by unfold WF; decide) (by decide) 0 1 s1k1 rfl

/-- C2 counterexample: after one S1 round the car's parity flag and the road's
parity flag are both false, i.e. equal where the claim requires different. -/
theorem C2_parity_counterexample :
    (s1r1.cellAt 0 1).car.map (fun k => k.overflow_flip_flop.state) = some false ∧
      s1r1.overflow_flip_flop.state = false := ⟨rfl, rfl⟩

/-- C3 (corrected): decrease_speed_to clamps the speed to min(speed, gap) and
leaves all other fields alone except that the accumulator clamp
min(accumulator, gap) happens exactly in the speed < gap branch — not, as the
spec says, when the car is actually braked. -/
theorem C3_braking (c : Car) (t : Nat) :
    (c.decrease_speed_to t).speed = min c.speed t ∧
    (c.decrease_speed_to t).acceleration_time_accumulated =
      (if c.speed < t then min c.acceleration_time_accumulated t
       else c.acceleration_time_accumulated) ∧
    (c.decrease_speed_to t).distance = c.distance ∧
    (c.decrease_speed_to t).max_speed = c.max_speed ∧
    (c.decrease_speed_to t).last_speed = c.last_speed := by
  unfold Car.decrease_speed_to
  split <;> rename_i hlt
  · refine ⟨?_, ?_, rfl, rfl, rfl⟩
    · show c.speed = min c.speed t
      omega
    · rfl
  · refine ⟨?_, ?_, rfl, rfl, rfl⟩
    · show t = min c.speed t
      omega
    · rfl

/-- C3 counterexample: a car at speed 3 braked to gap 1 keeps its accumulator
at 2; the spec's claimed clamp min(2, 1) = 1 does not happen. -/
theorem C3_braking_counterexample :
    (c3car.decrease_speed_to 1).speed = 1 ∧
    (c3car.decrease_speed_to 1).acceleration_time_accumulated = 2 ∧
    ¬(2 = min 2 1) := ⟨rfl, rfl, by decide⟩

/-- C4 (corrected): on a single-lane road the total of the cells' cars_passed
counters equals the total distance of the cars over any run from Road::new.
The claim as stated over every road is refuted by the two-lane counterexample,
where a diagonal lane change records one extra passage. -/
theorem C4_flow (fuel length n : Nat) (bps : List VehicleBlueprint)
    (dd st : ℚ) (blocks : List CellLocationRange) (tls : List CellLocation)
    (g : Rng) (r0 r' : Road)
    (hnew : Road.new fuel 1 length bps dd st blocks tls g = some r0)
    (hit : Road.iterateRounds n r0 = some r') :
    sumPassed r' = sumDistance r' := by
  obtain ⟨hWF, hlen, -, -, -, hbl, hsp, hsd, -, -, -, -⟩ :=
    new_props _ _ _ _ _ _ _ _ _ _ hnew (fun _ => true) (fun _ _ => rfl)
  exact (c4Inv_iterate n r0 r' hit ⟨hWF, hbl, hlen, by rw [hsp, hsd]⟩).2.2.2

/-- C4 witness: flow balance of scenario S1 after ten rounds. -/
theorem C4_flow_witness : sumPassed s1r10 = sumDistance s1r10 :=
  C4_flow 20 10 10 [⟨5, 1, mkRat 1 10⟩] 0 0 [] [] rng0 s1r0 s1r10 rfl rfl

set_option maxRecDepth 100000 in
/-- C4 counterexample: on the two-lane road the totals after two rounds are
4 passages against 3 distance. -/
theorem C4_flow_counterexample :
    (c4cfg.bind (Road.iterateRounds 2)).map (fun r => (sumPassed r, sumDistance r)) =
      some (4, 3) ∧ (4 : Nat) ≠ 3 := ⟨rfl, by decide⟩

/-- C5 (confirmed): every car spawned from a blueprint with a u8 max_speed
keeps speed ≤ max_speed (and max_speed ≤ 255) over any number of rounds, and
each individual Car operation preserves that bound. -/
theorem C5_speed (fuel lanes_n length n : Nat) (bps : List VehicleBlueprint)
    (dd st : ℚ) (blocks : List CellLocationRange) (tls : List CellLocation)
    (g : Rng) (r0 r' : Road)
    (hnew : Road.new fuel lanes_n length bps dd st blocks tls g = some r0)
    (hbps : ∀ bp ∈ bps, bp.max_speed ≤ 255)
    (hit : Road.iterateRounds n r0 = some r') :
    gridAllB (cellCarsAll speedOK) r' ∧
      (∀ k, speedOK k = true →
        speedOK k.increase_speed = true ∧ speedOK k.decrease_speed = true ∧
        ∀ t dd2, speedOK (k.decrease_speed_to t) = true ∧
          speedOK (k.finish t dd2) = true) := by
  have hp : ∀ bp ∈ bps, speedOK (Car.new bp) = true := by
    intro bp hbp
    unfold speedOK Car.new
    simp only [Bool.and_eq_true, decide_eq_true_eq]
    exact ⟨Nat.zero_le _, hbps bp hbp⟩
  obtain ⟨-, -, -, -, -, -, -, -, hcars, -, -, -⟩ :=
    new_props _ _ _ _ _ _ _ _ _ _ hnew speedOK hp
  refine ⟨carsAll_iterate speedOK speedOK_increase speedOK_finish speedOK_unsync
    n r0 r' hit hcars, ?_⟩
  intro k hk
  exact ⟨speedOK_increase k hk, speedOK_decrease k hk,
    fun t dd2 => ⟨speedOK_decrease_to k t hk, speedOK_finish k t dd2 hk⟩⟩

/-- C5 witness: the bound holds of scenario S1 after ten rounds. -/
theorem C5_speed_witness :
    gridAllB (cellCarsAll speedOK) s1r10 ∧
      (∀ k, speedOK k = true →
        speedOK k.increase_speed = true ∧ speedOK k.decrease_speed = true ∧
        ∀ t dd2, speedOK (k.decrease_speed_to t) = true ∧
          speedOK (k.finish t dd2) = true) :=
  C5_speed 20 1 10 10 [⟨5, 1, mkRat 1 10⟩] 0 0 [] [] rng0 s1r0 s1r10
    rfl (by decide) rfl

/-- C6 (corrected): scenario S1 produces the spec's per-round speeds
1,2,3,4,5,5,5,5,5,5 and the counters accelerations = 5, decelerations = 0,
but the distance after ten rounds is 40, not the spec's 35. -/
theorem C6_s1 :
    (List.range 10).map (fun k =>
      ((s1cfg.bind (Road.iterateRounds (k + 1))).bind theCar).map Car.speed) =
      [some 1, some 2, some 3, some 4, some 5,
        some 5, some 5, some 5, some 5, some 5] ∧
    ((s1cfg.bind (Road.iterateRounds 10)).bind theCar).map
      (fun c => (c.distance, c.accelerations, c.deaccelerations)) =
      some (40, 5, 0) := ⟨rfl, rfl⟩

/-- C6 counterexample: the S1 distance after ten rounds is 40, not 35. -/
theorem C6_s1_counterexample :
    ((s1cfg.bind (Road.iterateRounds 10)).bind theCar).map Car.distance = some 40 ∧
      (40 : Nat) ≠ 35 := ⟨rfl, by decide⟩

/-- C7 (confirmed): one round increments the round counter and the sweep runs
under traffic_lights_red = ((rounds+1) % 100 ≠ (rounds+1) % 200), i.e. red
exactly on the second half of each 200-round cycle; the flag the sweep sees is
the one the round preamble set. -/
theorem C7_lights (r r' : Road) (h : r.round = some r') :
    r'.rounds = r.rounds + 1 ∧
    r'.traffic_lights_red = ((r.rounds + 1) % 100 != (r.rounds + 1) % 200) ∧
    (r'.traffic_lights_red = true ↔ 100 ≤ (r.rounds + 1) % 200) ∧
    r.roundPrep.traffic_lights_red = r'.traffic_lights_red := by
  unfold round at h
  simp only at h
  cases hsw : sweepGo r.roundPrep
      (sweepPositions r.roundPrep.length r.roundPrep.lanes.length) with
  | none => rw [hsw] at h; exact absurd h (by simp)
  | some r1 =>
    rw [hsw] at h
    obtain rfl := Option.some_injective _ h
    have hfr := framePres_sweepGo _ _ _ hsw
    have hrounds : r1.rounds = r.rounds + 1 := by
      rw [hfr.2.2.1]; exact roundPrep_rounds r
    have hred : r1.traffic_lights_red = ((r.rounds + 1) % 100 != (r.rounds + 1) % 200) := by
      rw [hfr.2.2.2.2.2.2.2.1]; exact roundPrep_red r
    refine ⟨hrounds, hred, ?_, ?_⟩
    · show r1.traffic_lights_red = true ↔ 100 ≤ (r.rounds + 1) % 200
      rw [hred]
      constructor
      · intro hx
        rw [bne_iff_ne] at hx
        omega
      · intro hx
        rw [bne_iff_ne]
        omega
    · show r.roundPrep.traffic_lights_red = r1.traffic_lights_red
      rw [hred, roundPrep_red]

/-- C7 witness: the schedule facts of the first S1 round. -/
theorem C7_lights_witness :
    s1r1.rounds = s1r0.rounds + 1 ∧
    s1r1.traffic_lights_red = ((s1r0.rounds + 1) % 100 != (s1r0.rounds + 1) % 200) ∧
    (s1r1.traffic_lights_red = true ↔ 100 ≤ (s1r0.rounds + 1) % 200) ∧
    s1r0.roundPrep.traffic_lights_red = s1r1.traffic_lights_red :=
  C7_lights s1r0 s1r1 rfl

/-- C8 (confirmed; Cell.free and Cell.is_red_light are modelled from the spec
because the cell.rs in src predates the traffic-light feature): free(red)
holds exactly when the cell is not blocked, not a red light, and empty. -/
theorem C8_free (cell : Cell) (red : Bool) :
    cell.free red = true ↔
      cell.blocked = false ∧ (cell.traffic_light && red) = false ∧
        cell.car = none := by
  obtain ⟨kar, p, bl, tl⟩ := cell
  unfold Cell.free Cell.is_red_light
  cases bl <;> cases tl <;> cases red <;> cases kar <;> simp

/-- C9 (corrected): construction rejects an out-of-range
dilly_dally_probability, but the stay_in_lane_probability is stored without
any validation: the result is the same road (with the given value stored)
whatever st is. -/
theorem C9_validation (fuel lanes_n length : Nat) (bps : List VehicleBlueprint)
    (dd st : ℚ) (blocks : List CellLocationRange) (tls : List CellLocation)
    (g : Rng) :
    ((dd < 0 ∨ 1 < dd) → Road.new fuel lanes_n length bps dd st blocks tls g = none) ∧
    Road.new fuel lanes_n length bps dd st blocks tls g =
      (Road.new fuel lanes_n length bps dd 0 blocks tls g).map
        (fun r => { r with stay_in_lane_probability := st }) := by
  constructor
  · intro hdd
    unfold new
    have hnc : ¬(0 ≤ dd ∧ dd ≤ 1) := by
      rintro ⟨h1, h2⟩
      rcases hdd with hx | hx
      · exact absurd h1 (not_le.mpr hx)
      · exact absurd h2 (not_le.mpr hx)
    rw [if_neg hnc]
  · unfold new
    split
    · cases hbc : block_cells (create_lanes_and_cells lanes_n length) length blocks with
      | none => rfl
      | some q1 =>
        obtain ⟨lanes1, unbl⟩ := q1
        simp only
        cases htl : add_traffic_lights lanes1 tls with
        | none => rfl
        | some lanes2 =>
          simp only
          cases hac : add_cars fuel lanes2 unbl g bps with
          | none => rfl
          | some q3 =>
            obtain ⟨lanes3, g3, ncars⟩ := q3
            rfl
    · rfl

/-- C9 counterexample: construction succeeds with stay_in_lane_probability 2,
a value outside [0,1]. -/
theorem C9_validation_counterexample :
    (Road.new 10 1 2 [] 0 2 [] [] rng0).isSome = true ∧ ¬((2 : ℚ) ≤ 1) :=
  ⟨rfl, by norm_num⟩

/-- C10 (confirmed): put_car succeeds exactly on an unblocked empty cell; on
success the cell holds exactly the given car; on failure the cell is unchanged
and the error returns the car together with the cell's blocked flag. -/
theorem C10_put_car (cell : Cell) (k : Car) :
    ((cell.put_car k).2 = none ↔ cell.blocked = false ∧ cell.car = none) ∧
    ((cell.put_car k).2 = none → (cell.put_car k).1 = { cell with car := some k }) ∧
    (∀ e, (cell.put_car k).2 = some e →
      (cell.put_car k).1 = cell ∧ e.cell_blocked = cell.blocked ∧ e.new_car = k) := by
  obtain ⟨kar, p, bl, tl⟩ := cell
  unfold Cell.put_car
  cases bl <;> cases kar <;> simp

end Road

end Claims
